import Mathlib

/-!
# Formal model of the DocVerificator field-extraction and validation engine

A shallow embedding, in Lean 4, of the core of the `docverificator` Python
package: the civil-id checksum and validation logic (`validation.py`), the
identifier / date extraction heuristics (`extraction.py`), and the retry
candidate ranking (`pipeline.py`).

Modelling conventions:
* Python `str` is modelled as `List Char` (`Str` below).
* Python `float` is modelled as `ℚ` with exact arithmetic; `round(x, n)`
  is modelled as exact decimal rounding with round-half-to-even (Python's
  `round` semantics on decimals).
* `datetime.date` is modelled by the `Date` structure together with the
  `Date.valid` predicate (real calendar dates, proleptic Gregorian,
  year 1..9999, as in CPython); `date.today()` is an explicit parameter
  `today : Date` threaded through every function that consults the clock.
* Python's Unicode-aware `\d` is modelled by `isPyDigit`, covering the ASCII
  and Arabic-Indic digits (the two scripts this program normalizes);
  `str.lower` is modelled ASCII-wise (`asciiLower`), which is exact on the
  ASCII/Arabic text the extractor handles.
* Optional values (`None`) are `Option`; Python truthiness of an optional
  string (`if fields.civil_id:`) is `optTruthy`.
-/

/-- Python strings, modelled as lists of characters. -/
abbrev Str := List Char

/-- Model of Python's regex `\d` (Unicode decimal digit), restricted to the
ASCII digits and the Arabic-Indic digits U+0660..U+0669, the two digit
scripts this program processes (`normalize_digits` maps the latter to the
former). -/
def isPyDigit (c : Char) : Bool :=
  c.isDigit || (0x660 ≤ c.toNat && c.toNat ≤ 0x669)

/-- Value of a digit character under Python `int()`, for the digits covered
by `isPyDigit`. -/
def pyDigitVal (c : Char) : Nat :=
  if c.isDigit then c.toNat - 48 else c.toNat - 0x660

/-- `s` consists of exactly `n` Python digits (regex `\d{n}` full match). -/
def digitsN (n : Nat) (s : Str) : Bool :=
  s.length == n && s.all isPyDigit

/-- ASCII lowercasing of one character (model of `str.lower` for the ASCII
range; other characters, e.g. Arabic, are unchanged, as in Python). -/
def asciiLowerChar (c : Char) : Char :=
  if 'A' ≤ c && c ≤ 'Z' then Char.ofNat (c.toNat + 32) else c

/-- ASCII lowercasing of a string. -/
def asciiLower (s : Str) : Str := s.map asciiLowerChar

/-- Python truthiness of an optional string: `None` and `""` are falsy. -/
def optTruthy : Option Str → Bool
  | none => false
  | some s => !s.isEmpty

/-! ## Dates (model of `datetime.date`) -/

/-- A calendar date; mirrors `datetime.date(year, month, day)`. -/
structure Date where
  year : Nat
  month : Nat
  day : Nat
deriving DecidableEq, Repr

/-- Gregorian leap-year rule. -/
def isLeapYear (y : Nat) : Bool :=
  (y % 4 == 0 && y % 100 != 0) || y % 400 == 0

/-- Number of days in a month of a given year. -/
def daysInMonth (y m : Nat) : Nat :=
  if m == 2 then (if isLeapYear y then 29 else 28)
  else if m == 4 || m == 6 || m == 9 || m == 11 then 30
  else 31

/-- The date denotes a real calendar date constructible by
`datetime.date` (year 1..9999). -/
def Date.valid (d : Date) : Bool :=
  1 ≤ d.year && d.year ≤ 9999 && 1 ≤ d.month && d.month ≤ 12 &&
    1 ≤ d.day && d.day ≤ daysInMonth d.year d.month

/-- `datetime.date(y, m, d)`: `some` on a real calendar date, `none` models
the `ValueError` branch. -/
def mkDate (y m d : Nat) : Option Date :=
  if Date.valid ⟨y, m, d⟩ then some ⟨y, m, d⟩ else none

/-- Strict comparison of dates (Python `<` on `date`), lexicographic on
(year, month, day). -/
def Date.ltb (a b : Date) : Bool :=
  a.year < b.year ||
    (a.year == b.year &&
      (a.month < b.month || (a.month == b.month && a.day < b.day)))

/-- Non-strict comparison of dates (Python `<=` on `date`). -/
def Date.leb (a b : Date) : Bool :=
  Date.ltb a b || a == b

/-- Python tuple comparison `(a1, a2) < (b1, b2)` on naturals. -/
def pairLt (a b : Nat × Nat) : Bool :=
  a.1 < b.1 || (a.1 == b.1 && a.2 < b.2)

/-- Decimal digits of a natural number, most significant first. -/
def natChars (n : Nat) : Str := Nat.toDigits 10 n

/-- Left-pad a string with `'0'` to width `w` (model of `%02d`-style
zero padding in `strftime`). -/
def padZero (w : Nat) (s : Str) : Str :=
  List.replicate (w - s.length) '0' ++ s

/-! ## `validation.py`: checksum (`compute_civil_id_check_digit`,
`validate_civil_id_checksum`) -/

/-- `_CHECKSUM_WEIGHTS = (2, 1, 6, 3, 7, 9, 10, 5, 8, 4, 2)`. -/
def CHECKSUM_WEIGHTS : List Nat := [2, 1, 6, 3, 7, 9, 10, 5, 8, 4, 2]

/-- `sum(int(s[i]) * _CHECKSUM_WEIGHTS[i] for i in range(11))`. -/
def checksumTotal (s : Str) : Nat :=
  (List.zipWith (fun c w => pyDigitVal c * w) s CHECKSUM_WEIGHTS).sum

/-- `compute_civil_id_check_digit` (validation.py): `None` unless the input
is 11 digits; the weighted total mod 11 subtracted from 11 must land in
`[0, 9]` to produce a check digit. -/
def compute_civil_id_check_digit (s : Str) : Option Int :=
  if digitsN 11 s then
    let total : Int := (checksumTotal s : Int)
    let expected : Int := 11 - total % 11
    if expected < 0 ∨ expected > 9 then none else some expected
  else none

/-- `validate_civil_id_checksum` (validation.py): true iff the string is 12
digits and its last digit equals the computed check digit. -/
def validate_civil_id_checksum (s : Str) : Bool :=
  if digitsN 12 s then
    match compute_civil_id_check_digit (s.take 11) with
    | none => false
    | some e => e == (pyDigitVal (s.getLastD '0') : Int)
  else false

/-- The character for a decimal digit `d ≤ 9`. -/
def digitChar (d : Nat) : Char := Char.ofNat (48 + d)

/-! ## `models.py`: data model -/

/-- `ExtractedFields` (models.py). -/
structure ExtractedFields where
  civil_id : Option Str := none
  birth_date : Option Str := none
  expiry_date : Option Str := none
  name : Option Str := none
  doc_type_hint : Option Str := none
  candidate_names : List Str := []
  raw_lines : List Str := []
deriving DecidableEq, Repr

/-- One OCR line (`OCRLine`, models.py); the bounding polygon plays no role
in extraction and is omitted. -/
structure OCRLine where
  text : Str
  confidence : ℚ
deriving DecidableEq, Repr

/-- `OCRResult` (models.py). -/
structure OCRResult where
  lines : List OCRLine
  full_text : Str
  mean_confidence : ℚ
deriving DecidableEq, Repr

/-- `ValidationResult` (models.py). -/
structure ValidationResult where
  civil_id_format_valid : Option Bool := none
  civil_id_checksum_valid : Option Bool := none
  civil_id_dob_consistent : Option Bool := none
  dob_plausible : Option Bool := none
  name_similarity_score : Option ℚ := none
  name_match : Option Bool := none
  overall_pass : Bool := false
  warnings : List Str := []
deriving DecidableEq, Repr

/-- `Settings` (config.py), restricted to the fields the validation engine
reads (`min_age`, `max_age`; integers from the environment, so `Int`). -/
structure Settings where
  min_age : Int := 16
  max_age : Int := 110
deriving DecidableEq, Repr

/-! ## `pipeline.py`: retry candidate ranking -/

/-- `_field_score` (pipeline.py): 6 for a (truthy) civil id, 3 each for
birth and expiry dates, 2 for a name, 1 for a civil-id document hint. -/
def _field_score (fields : ExtractedFields) : Nat :=
  (if optTruthy fields.civil_id then 6 else 0) +
    (if optTruthy fields.birth_date then 3 else 0) +
    (if optTruthy fields.expiry_date then 3 else 0) +
    (if optTruthy fields.name then 2 else 0) +
    (if fields.doc_type_hint == some "civil_id".data then 1 else 0)

/-- Python tuple comparison `(s₁, c₁) > (s₂, c₂)` with an `int` first and a
`float` second component: lexicographic. -/
def rankGt (a b : Nat × ℚ) : Bool :=
  b.1 < a.1 || (a.1 == b.1 && b.2 < a.2)

/-- `_is_better_candidate` (pipeline.py). -/
def _is_better_candidate (candidate_ocr : OCRResult)
    (candidate_fields : ExtractedFields) (best_ocr : OCRResult)
    (best_fields : ExtractedFields) : Bool :=
  rankGt (_field_score candidate_fields, candidate_ocr.mean_confidence)
    (_field_score best_fields, best_ocr.mean_confidence)

/-- The replacement rule of the retry loop (pipeline.py,
`process_document`): fold the candidates left to right, replacing the
running best whenever `_is_better_candidate` holds (the first candidate
seeds the fold, mirroring the `local_best_ocr is None` check). -/
def foldBestCandidate (first : OCRResult × ExtractedFields)
    (rest : List (OCRResult × ExtractedFields)) :
    OCRResult × ExtractedFields :=
  rest.foldl
    (fun best c =>
      if _is_better_candidate c.1 c.2 best.1 best.2 then c else best)
    first

/-! ## Python `round` and float formatting (exact decimal model) -/

/-- Round-half-to-even to an integer (Python `round` semantics, modelled
exactly over `ℚ`). -/
def roundHalfEven (q : ℚ) : ℤ :=
  if q - ⌊q⌋ < 1/2 then ⌊q⌋
  else if q - ⌊q⌋ > 1/2 then ⌊q⌋ + 1
  else if ⌊q⌋ % 2 = 0 then ⌊q⌋ else ⌊q⌋ + 1

/-- `round(q, 4)`. -/
def pyRound4 (q : ℚ) : ℚ := (roundHalfEven (q * 10000) : ℚ) / 10000

/-- Decimal rendering of `f"{q:.2f}"` (two fixed decimals, used only to
build one warning string). -/
def formatFixed2 (q : ℚ) : Str :=
  let n := roundHalfEven (q * 100)
  let render := fun (m : Nat) =>
    natChars (m / 100) ++ ['.'] ++ padZero 2 (natChars (m % 100))
  if n < 0 then '-' :: render (-n).toNat else render n.toNat

/-! ## `difflib.SequenceMatcher.ratio` (standard-library fallback of
`name_similarity`) -/

/-- Length of the longest common prefix of two strings. -/
def commonPrefixLen : Str → Str → Nat
  | a :: as, b :: bs => if a == b then commonPrefixLen as bs + 1 else 0
  | _, _ => 0

/-- `SequenceMatcher.find_longest_match` over the whole strings: the
longest block `k` with `a[i:i+k] == b[j:j+k]`, ties resolved to the
earliest `i`, then the earliest `j`. (The junk/`autojunk` heuristics are
modelled as inactive; `autojunk` only triggers on strings of 200+
characters.) Returns `(i, j, size)`. -/
def findLongestMatch (a b : Str) : Nat × Nat × Nat :=
  let cands := (List.range a.length).flatMap fun i =>
    (List.range b.length).map fun j =>
      (i, j, commonPrefixLen (a.drop i) (b.drop j))
  cands.foldl (fun best c => if best.2.2 < c.2.2 then c else best) (0, 0, 0)

/-- Total size of all matching blocks found by `SequenceMatcher`
(Ratcliff–Obershelp: longest block, then recurse left and right of it).
The fuel argument bounds the recursion depth; `a.length + b.length` is
always sufficient since every recursive call strictly shrinks the combined
length. -/
def smMatchTotalFuel : Nat → Str → Str → Nat
  | 0, _, _ => 0
  | fuel + 1, a, b =>
    let m := findLongestMatch a b
    if m.2.2 = 0 then 0
    else
      m.2.2 + smMatchTotalFuel fuel (a.take m.1) (b.take m.2.1) +
        smMatchTotalFuel fuel (a.drop (m.1 + m.2.2)) (b.drop (m.2.1 + m.2.2))

/-- Total matching size of `SequenceMatcher(None, a, b)`. -/
def smMatchTotal (a b : Str) : Nat :=
  smMatchTotalFuel (a.length + b.length) a b

/-- `SequenceMatcher(None, a, b).ratio()`: `2·M / (len(a)+len(b))`, and
`1.0` for two empty strings. -/
def smRatio (a b : Str) : ℚ :=
  if a.length + b.length = 0 then 1
  else 2 * (smMatchTotal a b : ℚ) / ((a.length : ℚ) + (b.length : ℚ))

/-! ## `validation.py`: name normalization and similarity -/

/-- The `rapidfuzz.fuzz` scoring backend (external library), as three
percentage-valued similarity functions. -/
structure RapidFuzz where
  ratio : Str → Str → ℚ
  token_set_ratio : Str → Str → ℚ
  partial_ratio : Str → Str → ℚ

/-- External Unicode / library collaborators of the name-comparison code:
NFKC normalization and case folding (`unicodedata.normalize` and
`str.casefold` are Unicode-table driven), the word-character class of
regex `\w`, and the optionally installed `rapidfuzz` backend (`none`
models the `ImportError` fallback to `difflib.SequenceMatcher`). -/
structure NameEnv where
  nfkc : Str → Str
  caseFold : Str → Str
  isWordChar : Char → Bool
  rapidfuzz : Option RapidFuzz

/-- Python `str.strip()` (strip whitespace from both ends). -/
def pyStrip (s : Str) : Str :=
  ((s.dropWhile Char.isWhitespace).reverse.dropWhile Char.isWhitespace).reverse

/-- Helper of `collapseSpaces`: the flag records whether the previous
character was whitespace (in which case further whitespace is dropped). -/
def collapseSpacesAux : Bool → Str → Str
  | _, [] => []
  | inWs, c :: t =>
    if c.isWhitespace then
      if inWs then collapseSpacesAux true t
      else ' ' :: collapseSpacesAux true t
    else c :: collapseSpacesAux false t

/-- `re.sub(r"\s+", " ", ·)`: replace every maximal whitespace run by one
space. -/
def collapseSpaces (s : Str) : Str := collapseSpacesAux false s

/-- `_normalize_name` (validation.py): NFKC-normalize, strip, casefold,
replace non-word non-space characters by spaces, collapse whitespace,
strip. -/
def _normalize_name (env : NameEnv) (name : Str) : Str :=
  let text := env.caseFold (pyStrip (env.nfkc name))
  let text := text.map fun c =>
    if !(env.isWordChar c || c.isWhitespace) then ' ' else c
  pyStrip (collapseSpaces text)

/-- `name_similarity` (validation.py): 0.0 if either normalized name is
empty; otherwise the best of the three `rapidfuzz` scores over 100 (or the
`difflib` ratio when `rapidfuzz` is unavailable), rounded to 4 decimals. -/
def name_similarity (env : NameEnv) (expected_name extracted_name : Str) : ℚ :=
  let left := _normalize_name env expected_name
  let right := _normalize_name env extracted_name
  if left.isEmpty || right.isEmpty then 0
  else
    match env.rapidfuzz with
    | some rf =>
      pyRound4 (max (rf.ratio left right)
        (max (rf.token_set_ratio left right) (rf.partial_ratio left right)) / 100)
    | none => pyRound4 (smRatio left right)

/-! ## `validation.py`: date helpers and `validate_fields` -/

/-- `extract_dob_from_civil_id` (validation.py): decode the birth date
embedded in a 12-digit identifier (century digit, 2-digit year, month,
day); `none` on a bad century digit, an impossible date, or a future
date. -/
def extract_dob_from_civil_id (today : Date) (civil_id : Str) : Option Date :=
  if digitsN 12 civil_id then
    let yy := 10 * pyDigitVal (civil_id.getD 1 '0') + pyDigitVal (civil_id.getD 2 '0')
    let mm := 10 * pyDigitVal (civil_id.getD 3 '0') + pyDigitVal (civil_id.getD 4 '0')
    let dd := 10 * pyDigitVal (civil_id.getD 5 '0') + pyDigitVal (civil_id.getD 6 '0')
    let year? : Option Nat :=
      if civil_id.getD 0 '0' == '2' then some (1900 + yy)
      else if civil_id.getD 0 '0' == '3' then some (2000 + yy)
      else none
    match year? with
    | none => none
    | some year =>
      match mkDate year mm dd with
      | none => none
      | some dt => if Date.ltb today dt then none else some dt
  else none

/-- CPython strptime `%d` token (`3[01]|[12]\d|0[1-9]|[1-9]`, ASCII
digits). -/
def strptimeDayTok (s : Str) : Option Nat :=
  match s with
  | [c] => if '1' ≤ c && c ≤ '9' then some (pyDigitVal c) else none
  | [c1, c2] =>
    if (c1 == '3' && (c2 == '0' || c2 == '1')) ||
        ((c1 == '1' || c1 == '2') && c2.isDigit) ||
        (c1 == '0' && '1' ≤ c2 && c2 ≤ '9') then
      some (10 * pyDigitVal c1 + pyDigitVal c2)
    else none
  | _ => none

/-- CPython strptime `%m` token (`1[0-2]|0[1-9]|[1-9]`). -/
def strptimeMonthTok (s : Str) : Option Nat :=
  match s with
  | [c] => if '1' ≤ c && c ≤ '9' then some (pyDigitVal c) else none
  | [c1, c2] =>
    if (c1 == '1' && '0' ≤ c2 && c2 ≤ '2') ||
        (c1 == '0' && '1' ≤ c2 && c2 ≤ '9') then
      some (10 * pyDigitVal c1 + pyDigitVal c2)
    else none
  | _ => none

/-- CPython strptime `%Y` token (four digits). -/
def strptimeYearTok (s : Str) : Option Nat :=
  match s with
  | [c1, c2, c3, c4] =>
    if c1.isDigit && c2.isDigit && c3.isDigit && c4.isDigit then
      some (1000 * pyDigitVal c1 + 100 * pyDigitVal c2 +
        10 * pyDigitVal c3 + pyDigitVal c4)
    else none
  | _ => none

/-- `datetime.strptime(s, "%Y<sep>%m<sep>%d").date()`. -/
def strptimeYMD (sep : Char) (s : Str) : Option Date :=
  match s.splitOn sep with
  | [ys, ms, ds] =>
    match strptimeYearTok ys, strptimeMonthTok ms, strptimeDayTok ds with
    | some y, some m, some d => mkDate y m d
    | _, _, _ => none
  | _ => none

/-- `datetime.strptime(s, "%d<sep>%m<sep>%Y").date()`. -/
def strptimeDMY (sep : Char) (s : Str) : Option Date :=
  match s.splitOn sep with
  | [ds, ms, ys] =>
    match strptimeYearTok ys, strptimeMonthTok ms, strptimeDayTok ds with
    | some y, some m, some d => mkDate y m d
    | _, _, _ => none
  | _ => none

/-- `parse_iso_date` (validation.py): `none` on falsy input, else the
first of the formats `%Y-%m-%d`, `%d/%m/%Y`, `%d-%m-%Y`, `%Y/%m/%d` that
parses to a real date. -/
def parse_iso_date : Option Str → Option Date
  | none => none
  | some v =>
    if v.isEmpty then none
    else
      match strptimeYMD '-' v with
      | some d => some d
      | none =>
        match strptimeDMY '/' v with
        | some d => some d
        | none =>
          match strptimeDMY '-' v with
          | some d => some d
          | none => strptimeYMD '/' v

/-- Age in whole years as computed by `is_plausible_dob` (validation.py):
year difference minus one when the birthday has not yet occurred. -/
def pyAge (today value : Date) : Int :=
  (today.year : Int) - (value.year : Int) -
    (if pairLt (today.month, today.day) (value.month, value.day) then 1 else 0)

/-- `is_plausible_dob` (validation.py): `none` without a date, `false` for
a future date or an age outside `[min_age, max_age]`. -/
def is_plausible_dob (today : Date) (value : Option Date)
    (min_age max_age : Int) : Option Bool :=
  match value with
  | none => none
  | some v =>
    if Date.ltb today v then some false
    else some (decide (min_age ≤ pyAge today v ∧ pyAge today v ≤ max_age))

/-- `validate_fields` (validation.py). `env` supplies the external
collaborators of `name_similarity`; `today` models `date.today()`. -/
def validate_fields (env : NameEnv) (today : Date) (fields : ExtractedFields)
    (settings : Settings) (expected_name expected_dob : Option Str) :
    ValidationResult :=
  let no_key_fields :=
    !(optTruthy fields.civil_id || optTruthy fields.birth_date ||
      optTruthy fields.name)
  let warnings0 : List Str :=
    if no_key_fields then ["No key fields were extracted from OCR output.".data]
    else []
  let cid := fields.civil_id.getD []
  let civil :
      Option Bool × Option Bool × Option Bool × List Str :=
    if optTruthy fields.civil_id then
      if digitsN 12 cid then
        let chk := validate_civil_id_checksum cid
        let w1 :=
          if !chk then ["Civil ID checksum failed (community algorithm).".data]
          else []
        let cid_dob := extract_dob_from_civil_id today cid
        let extracted_dob := parse_iso_date fields.birth_date
        let expected_dob_parsed := parse_iso_date expected_dob
        let consw : Option Bool × List Str :=
          match extracted_dob, cid_dob with
          | some e, some c =>
            (some (e == c),
              if e != c then
                ["DOB from OCR does not match DOB encoded in Civil ID.".data]
              else [])
          | _, _ => (none, [])
        let w3 :=
          match expected_dob_parsed, cid_dob with
          | some e, some c =>
            if e != c then
              ["Expected DOB does not match DOB encoded in Civil ID.".data]
            else []
          | _, _ => []
        (some true, some chk, consw.1, w1 ++ consw.2 ++ w3)
      else
        (some false, some false, none,
          ["Civil ID format is invalid (must be 12 digits).".data])
    else (none, none, none, [])
  let dob_for_plausibility :=
    match parse_iso_date fields.birth_date with
    | some d => some d
    | none => parse_iso_date expected_dob
  let dob_plausible :=
    is_plausible_dob today dob_for_plausibility settings.min_age settings.max_age
  let w4 :=
    if dob_plausible == some false then ["DOB failed plausibility checks.".data]
    else []
  let nameb : Option ℚ × Option Bool × List Str :=
    if optTruthy expected_name && optTruthy fields.name then
      let score := name_similarity env (expected_name.getD []) (fields.name.getD [])
      let nm := decide ((84 : ℚ)/100 ≤ score)
      (some score, some nm,
        if !nm then
          ["Name similarity is low (".data ++ formatFixed2 score ++ ").".data]
        else [])
    else (none, none, [])
  let hard_failures : List Bool :=
    [no_key_fields,
      civil.1 == some false,
      if optTruthy fields.civil_id then civil.2.1 == some false else false,
      civil.2.2.1 == some false,
      dob_plausible == some false,
      if optTruthy expected_name && optTruthy fields.name then
        nameb.2.1 == some false
      else false]
  { civil_id_format_valid := civil.1
    civil_id_checksum_valid := civil.2.1
    civil_id_dob_consistent := civil.2.2.1
    dob_plausible := dob_plausible
    name_similarity_score := nameb.1
    name_match := nameb.2.1
    overall_pass := !hard_failures.any id
    warnings := warnings0 ++ civil.2.2.2 ++ w4 ++ nameb.2.2 }

/-- An OCR result with a given mean confidence (synthetic candidate for the
ranking example). -/
def exOCR (c : ℚ) : OCRResult :=
  { lines := [], full_text := [], mean_confidence := c }

/-- Synthetic extraction with only a civil-id document hint: field score 1. -/
def exFieldsHintOnly : ExtractedFields :=
  { doc_type_hint := some "civil_id".data }

/-- Synthetic extraction with only a name: field score 2. -/
def exFieldsNameOnly : ExtractedFields :=
  { name := some "John Doe".data }

/-- A concrete instantiation of the external name-comparison collaborators,
exact on ASCII input: NFKC and casefold act as identity / ASCII lowering
there, `\w` is ASCII alphanumerics plus underscore, and `rapidfuzz` is
absent (the `ImportError` fallback). Used to evaluate theorems on concrete
ASCII data. -/
def asciiNameEnv : NameEnv :=
  { nfkc := id
    caseFold := asciiLower
    isWordChar := fun c => c.isAlphanum || c == '_'
    rapidfuzz := none }

/-- A fixed concrete value for `date.today()` used by witnesses. -/
def exToday : Date := ⟨2026, 10, 12⟩

/-- An `ExtractedFields` with no extracted data at all. -/
def emptyFields : ExtractedFields := {}

/-- An extraction whose identifier has a failing checksum (the check digit
of `"29001011234"` is 6, not 5) together with an OCR birth date. -/
def badChecksumFields : ExtractedFields :=
  { civil_id := some "290010112345".data
    birth_date := some "01/01/1990".data }

/-- An extraction whose identifier is present but not 12 digits. -/
def shortIdFields : ExtractedFields :=
  { civil_id := some "123".data }

/-! ## `extraction.py`: text normalization and labels -/

/-- One Arabic-Indic digit to its ASCII equivalent. -/
def arabicToAscii (c : Char) : Char :=
  if 0x660 ≤ c.toNat && c.toNat ≤ 0x669 then Char.ofNat (48 + (c.toNat - 0x660))
  else c

/-- `normalize_digits` (extraction.py): translate Arabic-Indic digits to
ASCII. -/
def normalize_digits (s : Str) : Str := s.map arabicToAscii

/-- `_clean_line` (extraction.py). -/
def _clean_line (s : Str) : Str := pyStrip (normalize_digits s)

/-- The character table of `_normalize_for_digit_recovery`:
`O,o→0`, `I,l,|→1`, `S→5`. -/
def recoverChar (c : Char) : Char :=
  if c == 'O' || c == 'o' then '0'
  else if c == 'I' || c == 'l' || c == '|' then '1'
  else if c == 'S' then '5'
  else c

/-- `_normalize_for_digit_recovery` (extraction.py). -/
def _normalize_for_digit_recovery (s : Str) : Str := s.map recoverChar

/-- ASCII uppercasing (model of `str.upper` on the ASCII range). -/
def asciiUpperChar (c : Char) : Char :=
  if 'a' ≤ c && c ≤ 'z' then Char.ofNat (c.toNat - 32) else c

/-- ASCII uppercasing of a string. -/
def asciiUpper (s : Str) : Str := s.map asciiUpperChar

/-- Python's substring containment (`sub in s`): `sub` occurs contiguously
in `s`. -/
def strContains (s sub : Str) : Bool :=
  (List.range (s.length + 1)).any fun i => (s.drop i).take sub.length == sub

/-- `int()` of a non-empty digit string. -/
def pyIntOfDigits (s : Str) : Nat :=
  s.foldl (fun acc c => 10 * acc + pyDigitVal c) 0

/-- Model of the regex word-character class `\w` for the scripts this
program handles: ASCII alphanumerics, underscore, and the Arabic block. -/
def isWordCharPy (c : Char) : Bool :=
  c.isAlphanum || c == '_' || (0x600 ≤ c.toNat && c.toNat ≤ 0x6FF)

/-- Model of Python's Unicode `str.isalpha` for the scripts this program
handles: ASCII letters and the Arabic letter range. -/
def pyIsAlpha (c : Char) : Bool :=
  c.isAlpha || (0x621 ≤ c.toNat && c.toNat ≤ 0x64A)

/-- `_parse_date` (extraction.py): integer day/month/year from the matched
groups, two-digit years pivoted on the current year, years outside
`[1900, max_year]` rejected, impossible dates rejected, and birth-style
parses (`allow_future = False`) also rejected when in the future. -/
def _parse_date (today : Date) (day_s month_s year_s : Str)
    (allow_future : Bool) : Option Date :=
  let day := pyIntOfDigits day_s
  let month := pyIntOfDigits month_s
  let year0 := pyIntOfDigits year_s
  let year :=
    if year0 < 100 then
      if year0 ≤ today.year % 100 then 2000 + year0 else 1900 + year0
    else year0
  let max_year := if allow_future then today.year + 30 else today.year
  if year < 1900 ∨ year > max_year then none
  else
    match mkDate year month day with
    | none => none
    | some parsed =>
      if !allow_future && Date.ltb today parsed then none else some parsed

/-- `_format_date_output` (extraction.py): `strftime("%d/%m/%Y")`. -/
def _format_date_output (d : Date) : Str :=
  padZero 2 (natChars d.day) ++ ['/'] ++ padZero 2 (natChars d.month) ++
    ['/'] ++ natChars d.year

/-- `_parse_yymmdd` (extraction.py): six-digit `YYMMDD` token with the
two-digit year pivoted at `current_yy + 15`. -/
def _parse_yymmdd (today : Date) (token : Str) (allow_future : Bool) :
    Option Date :=
  if digitsN 6 token then
    let yy := pyIntOfDigits (token.take 2)
    let month := pyIntOfDigits ((token.drop 2).take 2)
    let day := pyIntOfDigits (token.drop 4)
    let current_yy := today.year % 100
    let year := if yy ≤ current_yy + 15 then 2000 + yy else 1900 + yy
    let max_year := if allow_future then today.year + 30 else today.year
    if year < 1900 ∨ year > max_year then none
    else
      match mkDate year month day with
      | none => none
      | some parsed =>
        if !allow_future && Date.ltb today parsed then none else some parsed
  else none

/-- `_civil_checksum_valid` (extraction.py's own copy of the checksum). -/
def _civil_checksum_valid (civil_id : Str) : Bool :=
  if digitsN 12 civil_id then
    let total : Int := (checksumTotal civil_id : Int)
    let expected : Int := 11 - total % 11
    decide (0 ≤ expected ∧ expected ≤ 9) &&
      expected == (pyDigitVal (civil_id.getLastD '0') : Int)
  else false

/-- `_civil_id_to_dob` (extraction.py's own copy of the decoder). -/
def _civil_id_to_dob (today : Date) (civil_id : Str) : Option Date :=
  if digitsN 12 civil_id then
    let yy := 10 * pyDigitVal (civil_id.getD 1 '0') + pyDigitVal (civil_id.getD 2 '0')
    let mm := 10 * pyDigitVal (civil_id.getD 3 '0') + pyDigitVal (civil_id.getD 4 '0')
    let dd := 10 * pyDigitVal (civil_id.getD 5 '0') + pyDigitVal (civil_id.getD 6 '0')
    let year? : Option Nat :=
      if civil_id.getD 0 '0' == '2' then some (1900 + yy)
      else if civil_id.getD 0 '0' == '3' then some (2000 + yy)
      else none
    match year? with
    | none => none
    | some year =>
      match mkDate year mm dd with
      | none => none
      | some parsed => if Date.ltb today parsed then none else some parsed
  else none

/-- `_dob_plausible` (extraction.py): age in `[0, 120]`. -/
def _dob_plausible (today : Date) (value : Date) : Bool :=
  decide (0 ≤ pyAge today value ∧ pyAge today value ≤ 120)

/-- `_CIVIL_LABELS_EN`. -/
def CIVIL_LABELS_EN : List Str :=
  ["civil id".data, "civilid".data, "id number".data, "id no".data,
    "civil".data]

/-- `_CIVIL_LABELS_AR`. -/
def CIVIL_LABELS_AR : List Str :=
  ["الرقم المدني".data,
    "رقم مدني".data,
    "البطاقة المدنية".data]

/-- `_DOB_LABELS_EN`. -/
def DOB_LABELS_EN : List Str :=
  ["dob".data, "date of birth".data, "birth date".data, "birth".data]

/-- `_DOB_LABELS_AR`. -/
def DOB_LABELS_AR : List Str :=
  ["تاريخ الميلاد".data,
    "ميلاد".data]

/-- `_EXPIRY_LABELS_EN`. -/
def EXPIRY_LABELS_EN : List Str :=
  ["expiry".data, "expiry date".data, "expiration".data,
    "expiration date".data, "exp date".data, "valid until".data]

/-- `_EXPIRY_LABELS_AR`. -/
def EXPIRY_LABELS_AR : List Str :=
  ["تاريخ الانتهاء".data,
    "الانتهاء".data]

/-- `_NAME_LABELS_EN`. -/
def NAME_LABELS_EN : List Str :=
  ["name".data, "full name".data, "customer name".data,
    "account holder".data]

/-- `_NAME_LABELS_AR`. -/
def NAME_LABELS_AR : List Str :=
  ["الاسم".data,
    "الاسم الكامل".data,
    "اسم العميل".data,
    "اسم صاحب الحساب".data]

/-- The `re.search(r"\bid(?:\s*no|\s*number|[:#])", lowered)` test used by
`_has_civil_label`. -/
def idLabelRegex (s : Str) : Bool :=
  (List.range (s.length + 1)).any fun i =>
    (decide (i = 0) || !isWordCharPy (s.getD (i - 1) ' ')) &&
      ((s.drop i).take 2 == "id".data) &&
      (let rest := s.drop (i + 2)
       let rest' := rest.dropWhile Char.isWhitespace
       rest'.take 2 == "no".data || rest'.take 6 == "number".data ||
         rest.take 1 == [':'] || rest.take 1 == ['#'])

/-- `_has_civil_label` (extraction.py). -/
def _has_civil_label (line : Str) : Bool :=
  let lowered := asciiLower line
  let compact := lowered.filter (fun c => !c.isWhitespace)
  CIVIL_LABELS_EN.any (fun l => strContains lowered l) ||
    strContains compact "civilid".data ||
    idLabelRegex lowered ||
    CIVIL_LABELS_AR.any (fun l => strContains line l)

/-- `_has_dob_label` (extraction.py). -/
def _has_dob_label (line : Str) : Bool :=
  let lowered := asciiLower line
  let compact := lowered.filter (fun c => 'a' ≤ c && c ≤ 'z')
  DOB_LABELS_EN.any (fun l => strContains lowered l) ||
    (strContains compact "dateofbirth".data ||
      strContains compact "birthdate".data || strContains compact "dob".data) ||
    DOB_LABELS_AR.any (fun l => strContains line l)

/-- `_has_expiry_label` (extraction.py). -/
def _has_expiry_label (line : Str) : Bool :=
  let lowered := asciiLower line
  let compact := lowered.filter (fun c => 'a' ≤ c && c ≤ 'z')
  EXPIRY_LABELS_EN.any (fun l => strContains lowered l) ||
    (strContains compact "expiry".data || strContains compact "expiration".data ||
      strContains compact "validuntil".data ||
      strContains compact "validtill".data) ||
    (strContains compact "date".data &&
      (["exp".data, "piy".data, "iry".data, "piry".data].any
        (fun t => strContains compact t))) ||
    EXPIRY_LABELS_AR.any (fun l => strContains line l)

/-- `_has_label_in_context` (extraction.py): a label on the line itself, or
detected when gluing the previous or next line to it. -/
def _has_label_in_context (lines : List Str) (idx : Nat)
    (checker : Str → Bool) : Bool :=
  checker (lines.getD idx []) ||
    (decide (0 < idx) &&
      checker (lines.getD (idx - 1) [] ++ [' '] ++ lines.getD idx [])) ||
    (decide (idx + 1 < lines.length) &&
      checker (lines.getD idx [] ++ [' '] ++ lines.getD (idx + 1) []))

/-! ## `extraction.py`: identifier candidates and scoreboard -/

/-- `_candidate_score` (extraction.py): labeled context +11, label on own
line +8, non-window +0.8, century marker first digit +1, decodable birth
date +2 (+2 more when age-plausible), checksum +7 / −2. -/
def _candidate_score (today : Date) (civil_id line : Str)
    (labeled_context from_window : Bool) : ℚ :=
  (if labeled_context then 11 else 0) +
    (if _has_civil_label line then 8 else 0) +
    (if !from_window then 8/10 else 0) +
    (if civil_id.getD 0 ' ' == '2' || civil_id.getD 0 ' ' == '3' then 1 else 0) +
    (match _civil_id_to_dob today civil_id with
      | some d => 2 + (if _dob_plausible today d then 2 else 0)
      | none => 0) +
    (if _civil_checksum_valid civil_id then 7 else -2)

/-- An insertion-ordered mapping from candidate strings to scores (model of
the Python `dict` scoreboards; assignment keeps the position of an existing
key, new keys append). -/
abbrev Scoreboard := List (Str × ℚ)

/-- Dictionary lookup. -/
def sbGet (sb : Scoreboard) (k : Str) : Option ℚ :=
  (sb.find? (fun p => p.1 == k)).map (·.2)

/-- Dictionary assignment. -/
def sbSet (sb : Scoreboard) (k : Str) (v : ℚ) : Scoreboard :=
  if sb.any (fun p => p.1 == k) then
    sb.map (fun p => if p.1 == k then (k, v) else p)
  else sb ++ [(k, v)]

/-- `_push_candidate` (extraction.py): ignore non-12-digit candidates;
record the score if the candidate is new or strictly improves on its
recorded score. -/
def _push_candidate (today : Date) (sb : Scoreboard) (candidate line : Str)
    (labeled_context from_window : Bool) : Scoreboard :=
  if digitsN 12 candidate then
    let score := _candidate_score today candidate line labeled_context from_window
    match sbGet sb candidate with
    | none => sbSet sb candidate score
    | some current => if current < score then sbSet sb candidate score else sb
  else sb

/-- `_push_candidate_with_bonus` (extraction.py). -/
def _push_candidate_with_bonus (today : Date) (sb : Scoreboard)
    (candidate line : Str) (labeled_context from_window : Bool) (bonus : ℚ) :
    Scoreboard :=
  if digitsN 12 candidate then
    let score :=
      _candidate_score today candidate line labeled_context from_window + bonus
    match sbGet sb candidate with
    | none => sbSet sb candidate score
    | some current => if current < score then sbSet sb candidate score else sb
  else sb

/-- Maximal runs of (Python) digits in a string: the matches of
`re.findall(r"\d+")`-style scans; the lookaround regexes
`(?<!\d)\d{12}(?!\d)` and `\d{12,}` pick these runs by length. -/
def digitRunsAux : Str → Str → List Str
  | [], acc => if acc.isEmpty then [] else [acc]
  | c :: t, acc =>
    if isPyDigit c then digitRunsAux t (acc ++ [c])
    else if acc.isEmpty then digitRunsAux t []
    else acc :: digitRunsAux t []

/-- All maximal digit runs of a string. -/
def digitRuns (s : Str) : List Str := digitRunsAux s []

/-- All 12-character sliding windows of a longer digit run
(`seq[i:i+12]` for `i in range(0, len(seq) - 11)`). -/
def windows12 (seq : Str) : List Str :=
  (List.range (seq.length - 11)).map fun i => (seq.drop i).take 12

/-- `_collect_line_candidates` (extraction.py): exact maximal 12-digit runs
(twice: once from the lookaround regex, once from the `\d{12,}` scan) are
non-window candidates; windows of longer runs are window candidates. -/
def _collect_line_candidates (line : Str) : List (Str × Bool) :=
  let normalized := _normalize_for_digit_recovery (normalize_digits line)
  let runs := digitRuns normalized
  (runs.filter (fun r => r.length == 12)).map (fun r => (r, false)) ++
    runs.flatMap (fun seq =>
      if seq.length < 12 then []
      else if seq.length == 12 then [(seq, false)]
      else (windows12 seq).map (fun w => (w, true)))

/-- The labeled pass of `_pick_civil_id`: for every line carrying a civil-id
label, push (with +2 bonus) every candidate of that line and the two
following lines, plus (with +7.5 bonus) the trailing 12 digits of every
run of 13 or more digits. -/
def labeledScoreboard (today : Date) (lines : List Str) : Scoreboard :=
  (List.range lines.length).foldl
    (fun sb idx =>
      if !_has_civil_label (lines.getD idx []) then sb
      else
        (List.range' idx (min (idx + 3) lines.length - idx)).foldl
          (fun sb j =>
            let lj := lines.getD j []
            let normalized := _normalize_for_digit_recovery (normalize_digits lj)
            let sb := (_collect_line_candidates normalized).foldl
              (fun sb cw =>
                _push_candidate_with_bonus today sb cw.1 lj true cw.2 2) sb
            ((digitRuns normalized).filter (fun r => 13 ≤ r.length)).foldl
              (fun sb seq =>
                _push_candidate_with_bonus today sb
                  (seq.drop (seq.length - 12)) lj true true (15/2)) sb)
          sb)
    []

/-- The state of the cross-line reconstruction loop: all digit chunks it
accumulates starting from line `i` (one per inner iteration that passed
the non-empty-segment check; the loop breaks at the first empty segment
and looks at most 4 lines ahead). -/
def crossChunks (lines : List Str) (i : Nat) : List Str :=
  ((List.range' i (min (i + 4) lines.length - i)).foldl
    (fun (st : Bool × List Str × Str) j =>
      if st.1 then st
      else
        let segment :=
          (_normalize_for_digit_recovery (lines.getD j [])).filter isPyDigit
        if segment.isEmpty then (true, st.2.1, st.2.2)
        else (false, st.2.1 ++ [st.2.2 ++ segment], st.2.2 ++ segment))
    (false, [], [])).2.1

/-- The unlabeled passes of `_pick_civil_id`: per-line candidates, the
labeled rescans, and the cross-line reconstruction windows. -/
def unlabeledScoreboard (today : Date) (lines : List Str) : Scoreboard :=
  let sb := (List.range lines.length).foldl
    (fun sb idx =>
      let line := lines.getD idx []
      let sb := (_collect_line_candidates line).foldl
        (fun sb cw => _push_candidate today sb cw.1 line false cw.2) sb
      if _has_civil_label line then
        (List.range' idx (min (idx + 3) lines.length - idx)).foldl
          (fun sb j =>
            let lj := lines.getD j []
            (_collect_line_candidates lj).foldl
              (fun sb cw => _push_candidate today sb cw.1 lj true cw.2) sb)
          sb
      else sb)
    []
  (List.range lines.length).foldl
    (fun sb i =>
      let has_label := _has_civil_label (lines.getD i [])
      (crossChunks lines i).foldl
        (fun sb chunk =>
          (List.range (chunk.length - 11)).foldl
            (fun sb k =>
              _push_candidate today sb ((chunk.drop k).take 12)
                (lines.getD i []) has_label true)
            sb)
        sb)
    sb

/-- `max(d.items(), key=lambda item: item[1])` over an insertion-ordered
scoreboard: the first entry of maximal score. -/
def sbBest : Scoreboard → Option (Str × ℚ)
  | [] => none
  | p :: t => some (t.foldl (fun best q => if best.2 < q.2 then q else best) p)

/-- `_pick_civil_id` (extraction.py): the labeled scoreboard short-circuits;
the unlabeled and cross-line passes are consulted only when it is empty. -/
def _pick_civil_id (today : Date) (lines : List Str) : Option Str :=
  if lines.isEmpty then none
  else
    let lsb := labeledScoreboard today lines
    if !lsb.isEmpty then (sbBest lsb).map (·.1)
    else
      let sb := unlabeledScoreboard today lines
      if sb.isEmpty then none else (sbBest sb).map (·.1)

/-! ## `extraction.py`: date collection and resolution -/

/-- `_DateCandidate` (extraction.py). -/
structure DateCandidate where
  value : Date
  line_index : Nat
  has_dob_label : Bool
  has_expiry_label : Bool
  direct_dob_label : Bool
  direct_expiry_label : Bool
  raw_text : Str
deriving DecidableEq, Repr

/-- A date separator (`[/\-.]`). -/
def isDateSep (c : Char) : Bool := c == '/' || c == '-' || c == '.'

/-- The alternatives for a greedy `\d{1,2}` group at the front of `s`
(two digits preferred), each with the remaining input. -/
def dayCandidates (s : Str) : List (Str × Str) :=
  match s with
  | c1 :: c2 :: t =>
    if isPyDigit c1 && isPyDigit c2 then [([c1, c2], t), ([c1], c2 :: t)]
    else if isPyDigit c1 then [([c1], c2 :: t)] else []
  | [c1] => if isPyDigit c1 then [([c1], [])] else []
  | [] => []

/-- The alternatives for a greedy `\d{2,4}` group at the front of `s`
(longest first). -/
def yearCandidates (s : Str) : List (Str × Str) :=
  let n := min (s.takeWhile isPyDigit).length 4
  if n < 2 then []
  else ((List.range' 2 (n - 1)).reverse).map fun k => (s.take k, s.drop k)

/-- One attempt to match `\b(\d{1,2})[/\-.](\d{1,2})[/\-.](\d{2,4})\b` at
the start of `s` (`prev` is the preceding character, if any); returns the
three groups and the whole matched text. -/
def tryDateMatchAt (prev : Option Char) (s : Str) :
    Option (Str × Str × Str × Str) :=
  if (match prev with | none => false | some c => isWordCharPy c) then none
  else
    (dayCandidates s).findSome? fun dc =>
      match dc.2 with
      | sep1 :: r2 =>
        if isDateSep sep1 then
          (dayCandidates r2).findSome? fun mc =>
            match mc.2 with
            | sep2 :: r4 =>
              if isDateSep sep2 then
                (yearCandidates r4).findSome? fun yc =>
                  if (match yc.2.head? with
                      | none => true
                      | some c => !isWordCharPy c) then
                    some (dc.1, mc.1, yc.1,
                      dc.1 ++ [sep1] ++ mc.1 ++ [sep2] ++ yc.1)
                  else none
              else none
            | [] => none
        else none
      | [] => none

/-- The scan loop of `re.finditer` for the date pattern: try a match at
every position, left to right, continuing after each match (the fuel
bounds the number of iterations; `s.length + 1` always suffices). -/
def scanDateMatches : Nat → Option Char → Str → List (Str × Str × Str × Str)
  | 0, _, _ => []
  | fuel + 1, prev, s =>
    match tryDateMatchAt prev s, s with
    | some m, _ =>
      m :: scanDateMatches fuel ((m.2.2.2).getLast? <|> prev)
        (s.drop (m.2.2.2).length)
    | none, [] => []
    | none, c :: t => scanDateMatches fuel (some c) t

/-- All matches of `_DATE_RE` in a line: `(day, month, year, whole)`. -/
def findDateTokens (s : Str) : List (Str × Str × Str × Str) :=
  scanDateMatches (s.length + 1) none s

/-- All matches of `_DATE_COMPACT_RE` against the digits-only form of a
line: on an all-digit string, `(?<!\d)(\d{2})(\d{2})(\d{4})(?!\d)` matches
exactly when the string has length 8. -/
def compactDateTokens (line : Str) : List (Str × Str × Str × Str) :=
  let compact := line.filter isPyDigit
  if compact.length == 8 then
    [(compact.take 2, (compact.drop 2).take 2, compact.drop 4, compact)]
  else []

/-- `_collect_date_candidates` (extraction.py): the separator pattern runs
on every line; the compact pattern only on lines with a birth or expiry
label in context; all parses allow future dates (bounded by the year
window of `_parse_date`). -/
def _collect_date_candidates (today : Date) (lines : List Str) :
    List DateCandidate :=
  (List.range lines.length).flatMap fun idx =>
    let raw := lines.getD idx []
    let line := normalize_digits raw
    let direct_dob_label := _has_dob_label line
    let direct_expiry_label := _has_expiry_label line
    let has_dob_label := _has_label_in_context lines idx _has_dob_label
    let has_expiry_label := _has_label_in_context lines idx _has_expiry_label
    let sepCands := (findDateTokens line).filterMap fun t =>
      match _parse_date today t.1 t.2.1 t.2.2.1 true with
      | some dt =>
        some ⟨dt, idx, has_dob_label, has_expiry_label, direct_dob_label,
          direct_expiry_label, t.2.2.2⟩
      | none => none
    let compactCands :=
      if has_dob_label || has_expiry_label then
        (compactDateTokens line).filterMap fun t =>
          match _parse_date today t.1 t.2.1 t.2.2.1 true with
          | some dt =>
            some ⟨dt, idx, has_dob_label, has_expiry_label, direct_dob_label,
              direct_expiry_label, t.2.2.2⟩
          | none => none
      else []
    sepCands ++ compactCands

/-- `max(pool, key=lambda c: (c.value, c.line_index))`: first candidate of
lexicographically maximal (date, line index). -/
def maxByValueLine (pool : List DateCandidate) : Option DateCandidate :=
  match pool with
  | [] => none
  | p :: t =>
    some (t.foldl
      (fun best c =>
        if Date.ltb best.value c.value ||
            (best.value == c.value && best.line_index < c.line_index) then c
        else best)
      p)

/-- `max(dates)` over raw date values. -/
def maxDateValue : List Date → Option Date
  | [] => none
  | d :: t => some (t.foldl (fun best v => if Date.ltb best v then v else best) d)

/-- One attempt to match `[A-Z]([0-9]{6})[A-Z]([0-9]{6})` at the start of
the string. -/
def tryMrzAt (s : Str) : Option (Str × Str) :=
  match s with
  | c :: rest =>
    if 'A' ≤ c && c ≤ 'Z' then
      let d1 := rest.take 6
      if d1.length == 6 && d1.all Char.isDigit then
        match rest.drop 6 with
        | c2 :: rest2 =>
          if 'A' ≤ c2 && c2 ≤ 'Z' then
            let d2 := rest2.take 6
            if d2.length == 6 && d2.all Char.isDigit then some (d1, d2)
            else none
          else none
        | [] => none
      else none
    else none
  | [] => none

/-- The `re.findall` scan for the MRZ pattern (fuel-bounded as above). -/
def scanMrz : Nat → Str → List (Str × Str)
  | 0, _ => []
  | fuel + 1, s =>
    match tryMrzAt s, s with
    | some pr, _ => pr :: scanMrz fuel (s.drop 14)
    | none, [] => []
    | none, _ :: t => scanMrz fuel t

/-- All `_MRZ_DATE_PAIR_RE` matches in a line. -/
def mrzPairs (s : Str) : List (Str × Str) := scanMrz (s.length + 1) s

/-- `_pick_dob_and_expiry` (extraction.py). -/
def _pick_dob_and_expiry (today : Date) (lines : List Str)
    (civil_id : Option Str) : Option Str × Option Str :=
  let candidates := _collect_date_candidates today lines
  let step1 : Option Date × Option Nat :=
    if optTruthy civil_id then
      match _civil_id_to_dob today (civil_id.getD []) with
      | some cdob =>
        (some cdob,
          (candidates.find? (fun c => c.value == cdob)).map (·.line_index))
      | none => (none, none)
    else (none, none)
  let dobPair : Option Date × Option Nat :=
    match step1.1 with
    | some d => (some d, step1.2)
    | none =>
      match (candidates.filter
          (fun c => c.direct_dob_label && _dob_plausible today c.value)).head? with
      | some c => (some c.value, some c.line_index)
      | none =>
        match (candidates.filter
            (fun c => c.has_dob_label && _dob_plausible today c.value)).head? with
        | some c => (some c.value, some c.line_index)
        | none =>
          match (candidates.filter
              (fun c => _dob_plausible today c.value)).head? with
          | some c => (some c.value, some c.line_index)
          | none => (none, none)
  let dob_date := dobPair.1
  let dob_line_index := dobPair.2
  let pick_expiry_value : List DateCandidate → Option Date := fun pool =>
    if pool.isEmpty then none
    else
      match dob_date with
      | some dd =>
        (match maxByValueLine (pool.filter (fun c => Date.ltb dd c.value)) with
          | some c => some c.value
          | none =>
            match maxByValueLine (pool.filter (fun c => c.value != dd)) with
            | some c => some c.value
            | none => (maxByValueLine pool).map (·.value))
      | none => (maxByValueLine pool).map (·.value)
  let expiry1 := pick_expiry_value (candidates.filter (·.direct_expiry_label))
  let expiry2 :=
    match expiry1 with
    | some e => some e
    | none => pick_expiry_value (candidates.filter (·.has_expiry_label))
  let expiry3 :=
    match expiry2, dob_date with
    | none, some dd =>
      pick_expiry_value (candidates.filter (fun c =>
        Date.ltb dd c.value &&
          (match dob_line_index with
            | none => true
            | some li => decide (li ≤ c.line_index))))
    | e, _ => e
  let expiry4 :=
    match expiry3, dob_date with
    | none, some dd =>
      pick_expiry_value (candidates.filter (fun c => Date.ltb dd c.value))
    | e, _ => e
  let expiry5 :=
    match expiry4 with
    | none =>
      if candidates.isEmpty then none
      else maxDateValue (candidates.map (·.value))
    | e => e
  let mrzState : Option Date × Option Nat × Option Date :=
    match expiry5 with
    | some e => (dob_date, dob_line_index, some e)
    | none =>
      lines.foldl
        (fun (st : Option Date × Option Nat × Option Date) raw =>
          match st.2.2 with
          | some _ => st
          | none =>
            let normalized :=
              asciiUpper (_normalize_for_digit_recovery (normalize_digits raw))
            (mrzPairs normalized).foldl
              (fun (st2 : Option Date × Option Nat × Option Date)
                  (pr : Str × Str) =>
                match st2.2.2 with
                | some _ => st2
                | none =>
                  let mrz_dob := _parse_yymmdd today pr.1 false
                  let mrz_exp := _parse_yymmdd today pr.2 true
                  let dd :=
                    match st2.1, mrz_dob with
                    | none, some d =>
                      if _dob_plausible today d then (some d, some 0)
                      else (none, st2.2.1)
                    | a, _ => (a, st2.2.1)
                  match mrz_exp with
                  | some e =>
                    if (match dd.1 with
                        | none => true
                        | some d0 => Date.ltb d0 e) then (dd.1, dd.2, some e)
                    else (dd.1, dd.2, none)
                  | none => (dd.1, dd.2, none))
              st)
        (dob_date, dob_line_index, none)
  ((mrzState.1).map _format_date_output, (mrzState.2.2).map _format_date_output)

/-! ### Stage views of `_pick_dob_and_expiry`

Named copies of the let-bound stages of `_pick_dob_and_expiry`, each
definitionally equal to the corresponding subterm of its body; they let
theorems talk about the stages separately. -/

/-- The `step1` stage of `_pick_dob_and_expiry`: the DOB decoded from the
civil id, with the line index of a matching candidate. -/
def dobStep1 (today : Date) (candidates : List DateCandidate)
    (civil_id : Option Str) : Option Date × Option Nat :=
  if optTruthy civil_id then
    match _civil_id_to_dob today (civil_id.getD []) with
    | some cdob =>
      (some cdob,
        (candidates.find? (fun c => c.value == cdob)).map (·.line_index))
    | none => (none, none)
  else (none, none)

/-- The DOB-selection stage of `_pick_dob_and_expiry`: civil-id DOB first,
then directly labeled, context-labeled, and generic plausible candidates. -/
def dobStage (today : Date) (candidates : List DateCandidate)
    (civil_id : Option Str) : Option Date × Option Nat :=
  match (dobStep1 today candidates civil_id).1 with
  | some d => (some d, (dobStep1 today candidates civil_id).2)
  | none =>
    match (candidates.filter
        (fun c => c.direct_dob_label && _dob_plausible today c.value)).head? with
    | some c => (some c.value, some c.line_index)
    | none =>
      match (candidates.filter
          (fun c => c.has_dob_label && _dob_plausible today c.value)).head? with
      | some c => (some c.value, some c.line_index)
      | none =>
        match (candidates.filter
            (fun c => _dob_plausible today c.value)).head? with
        | some c => (some c.value, some c.line_index)
        | none => (none, none)

/-- The `pick_expiry_value` closure of `_pick_dob_and_expiry`. -/
def pickExpiry (dob_date : Option Date) (pool : List DateCandidate) :
    Option Date :=
  if pool.isEmpty then none
  else
    match dob_date with
    | some dd =>
      (match maxByValueLine (pool.filter (fun c => Date.ltb dd c.value)) with
        | some c => some c.value
        | none =>
          match maxByValueLine (pool.filter (fun c => c.value != dd)) with
          | some c => some c.value
          | none => (maxByValueLine pool).map (·.value))
    | none => (maxByValueLine pool).map (·.value)

/-- Stage `expiry1` of `_pick_dob_and_expiry`: directly labeled pool. -/
def expiryStage1 (candidates : List DateCandidate)
    (dob_date : Option Date) : Option Date :=
  pickExpiry dob_date (candidates.filter (·.direct_expiry_label))

/-- Stage `expiry2`: context-labeled pool as fallback. -/
def expiryStage2 (candidates : List DateCandidate)
    (dob_date : Option Date) : Option Date :=
  match expiryStage1 candidates dob_date with
  | some e => some e
  | none => pickExpiry dob_date (candidates.filter (·.has_expiry_label))

/-- Stage `expiry3`: post-DOB candidates at or after the DOB line. -/
def expiryStage3 (candidates : List DateCandidate)
    (dob_date : Option Date) (dob_line_index : Option Nat) : Option Date :=
  match expiryStage2 candidates dob_date, dob_date with
  | none, some dd =>
    pickExpiry dob_date (candidates.filter (fun c =>
      Date.ltb dd c.value &&
        (match dob_line_index with
          | none => true
          | some li => decide (li ≤ c.line_index))))
  | e, _ => e

/-- Stage `expiry4`: post-DOB candidates anywhere. -/
def expiryStage4 (candidates : List DateCandidate)
    (dob_date : Option Date) (dob_line_index : Option Nat) : Option Date :=
  match expiryStage3 candidates dob_date dob_line_index, dob_date with
  | none, some dd =>
    pickExpiry dob_date (candidates.filter (fun c => Date.ltb dd c.value))
  | e, _ => e

/-- Stage `expiry5`: resilient fallback to the latest visible date. -/
def expiryStage5 (candidates : List DateCandidate)
    (dob_date : Option Date) (dob_line_index : Option Nat) : Option Date :=
  match expiryStage4 candidates dob_date dob_line_index with
  | none =>
    if candidates.isEmpty then none
    else maxDateValue (candidates.map (·.value))
  | e => e

/-- One step of the inner MRZ fold of `_pick_dob_and_expiry`. -/
def mrzInner (today : Date) (st2 : Option Date × Option Nat × Option Date)
    (pr : Str × Str) : Option Date × Option Nat × Option Date :=
  match st2.2.2 with
  | some _ => st2
  | none =>
    let mrz_dob := _parse_yymmdd today pr.1 false
    let mrz_exp := _parse_yymmdd today pr.2 true
    let dd :=
      match st2.1, mrz_dob with
      | none, some d =>
        if _dob_plausible today d then (some d, some 0)
        else (none, st2.2.1)
      | a, _ => (a, st2.2.1)
    match mrz_exp with
    | some e =>
      if (match dd.1 with
          | none => true
          | some d0 => Date.ltb d0 e) then (dd.1, dd.2, some e)
      else (dd.1, dd.2, none)
    | none => (dd.1, dd.2, none)

/-- One step of the outer MRZ fold of `_pick_dob_and_expiry` (per line). -/
def mrzOuter (today : Date) (st : Option Date × Option Nat × Option Date)
    (raw : Str) : Option Date × Option Nat × Option Date :=
  match st.2.2 with
  | some _ => st
  | none =>
    let normalized :=
      asciiUpper (_normalize_for_digit_recovery (normalize_digits raw))
    (mrzPairs normalized).foldl
      (fun (st2 : Option Date × Option Nat × Option Date)
          (pr : Str × Str) => mrzInner today st2 pr)
      st

/-- The MRZ fallback stage of `_pick_dob_and_expiry`: runs only when no
expiry was found by the earlier stages. -/
def mrzStage (today : Date) (lines : List Str) (dob_date : Option Date)
    (dob_line_index : Option Nat) (expiry5 : Option Date) :
    Option Date × Option Nat × Option Date :=
  match expiry5 with
  | some e => (dob_date, dob_line_index, some e)
  | none =>
    lines.foldl
      (fun (st : Option Date × Option Nat × Option Date) raw =>
        mrzOuter today st raw)
      (dob_date, dob_line_index, none)

/-- A concrete OCR result with a labeled civil id (valid checksum, so its
decoded DOB drives the birth date) and a labeled expiry date. -/
def exOCR9 : OCRResult :=
  { lines := [⟨"civil id: 290010112346".data, 9/10⟩,
      ⟨"expiry: 01/01/2030".data, 9/10⟩]
    full_text := "civil id: 290010112346\nexpiry: 01/01/2030".data
    mean_confidence := 9/10 }

/-! ## `extraction.py`: name extraction, document hint, facade -/

/-- `_name_score` (extraction.py): −1 for short lines, lines citing other
field labels, or all-non-alphabetic lines; otherwise alphabetic density
plus a capped alphabetic count bonus minus a digit penalty. -/
def _name_score (line : Str) : ℚ :=
  if line.length < 3 then -1
  else
    let lowered := asciiLower line
    if ["birth".data, "dob".data, "expiry".data, "expiration".data,
        "civil id".data, "serial".data, "date".data].any
        (fun t => strContains lowered t) then -1
    else
      let alpha := (line.filter pyIsAlpha).length
      let digits := (line.filter isPyDigit).length
      if alpha == 0 then -1
      else
        (alpha : ℚ) / (max line.length 1) + (min alpha 36 : ℚ) / 80 -
          (digits : ℚ) * (1/10)

/-- Python `str.strip(": -\t")`. -/
def stripCharSet (set : Str) (s : Str) : Str :=
  ((s.dropWhile (set.contains ·)).reverse.dropWhile (set.contains ·)).reverse

/-- `clean_name_value` (extraction.py): strip `": -\t"`, collapse
whitespace, strip. -/
def clean_name_value (value : Str) : Str :=
  pyStrip (collapseSpaces (stripCharSet ": -\t".data value))

/-- Maximal whitespace-free runs (`re.split(r"\s+")` with empty parts
dropped). -/
def wordRunsAux : Str → Str → List Str
  | [], acc => if acc.isEmpty then [] else [acc]
  | c :: t, acc =>
    if !c.isWhitespace then wordRunsAux t (acc ++ [c])
    else if acc.isEmpty then wordRunsAux t []
    else acc :: wordRunsAux t []

/-- All maximal whitespace-free runs of a string. -/
def wordRuns (s : Str) : List Str := wordRunsAux s []

/-- A character kept by `re.sub(r"[^A-Za-z؀-ۿ]", "", ·)`. -/
def isNameTokenChar (c : Char) : Bool :=
  ('A' ≤ c && c ≤ 'Z') || ('a' ≤ c && c ≤ 'z') ||
    (0x600 ≤ c.toNat && c.toNat ≤ 0x6FF)

/-- `clean_name_tokens` (extraction.py): needs at least two words; keeps
only Latin/Arabic letters of each word; joins with single spaces. -/
def clean_name_tokens (value : Str) : Str :=
  let parts := wordRuns value
  if parts.length < 2 then []
  else
    pyStrip (List.intercalate [' ']
      ((parts.map (fun p => p.filter isNameTokenChar)).filter
        (fun t => !t.isEmpty)))

/-- `looks_like_non_name_label` (extraction.py). -/
def looks_like_non_name_label (value : Str) : Bool :=
  let compact := (asciiLower value).filter (fun c => 'a' ≤ c && c ≤ 'z')
  ["birthdate".data, "dateofbirth".data, "dob".data, "expiry".data,
    "expiration".data, "civilid".data, "civilnumber".data, "idnumber".data,
    "serial".data].any (fun t => strContains compact t)

/-- `has_name_label` (extraction.py, local to `_label_extract_name`). -/
def has_name_label (line : Str) : Bool :=
  let lowered := asciiLower line
  NAME_LABELS_EN.any (fun l => strContains lowered l) ||
    NAME_LABELS_AR.any (fun l => strContains line l)

/-- Position of the first occurrence of `sub` in `s` (`str.find`). -/
def findSub (sub s : Str) : Option Nat :=
  (List.range (s.length + 1)).find? fun i => (s.drop i).take sub.length == sub

/-- Scanner of `removeAllCI`. -/
def removeAllCIAux (label : Str) : Nat → Str → Str
  | 0, s => s
  | fuel + 1, s =>
    match s with
    | [] => []
    | c :: t =>
      if (asciiLower (c :: t)).take label.length == label then
        removeAllCIAux label fuel (t.drop (label.length - 1))
      else c :: removeAllCIAux label fuel t

/-- `re.sub(label, "", value, flags=re.IGNORECASE)` for a literal ASCII
label (fuel-bounded scan; `s.length` iterations always suffice). -/
def removeAllCI (label : Str) (s : Str) : Str :=
  if label.isEmpty then s else removeAllCIAux label s.length s

/-- Scanner of `removeAll`. -/
def removeAllAux (pat : Str) : Nat → Str → Str
  | 0, s => s
  | fuel + 1, s =>
    match s with
    | [] => []
    | c :: t =>
      if (c :: t).take pat.length == pat then
        removeAllAux pat fuel (t.drop (pat.length - 1))
      else c :: removeAllAux pat fuel t

/-- `str.replace(pat, "")`: remove every occurrence of a non-empty
pattern (fuel-bounded scan). -/
def removeAll (pat : Str) (s : Str) : Str :=
  if pat.isEmpty then s else removeAllAux pat s.length s

/-- `sorted(_NAME_LABELS_EN, key=len, reverse=True)` (a static
computation: lengths 14, 13, 9, 4). -/
def NAME_LABELS_EN_BY_LEN : List Str :=
  ["account holder".data, "customer name".data, "full name".data,
    "name".data]

/-- The label-stripped candidate value of pass 1 of `_label_extract_name`
for one line. -/
def labelStrippedValue (line : Str) : Str :=
  let lowered := asciiLower line
  let value :=
    match NAME_LABELS_EN_BY_LEN.findSome?
        (fun label => (findSub label lowered).map (fun pos => (label, pos))) with
    | some lp => line.drop (lp.2 + lp.1.length)
    | none => NAME_LABELS_EN.foldl (fun v l => removeAllCI l v) line
  let value := NAME_LABELS_AR.foldl (fun v l => removeAll l v) value
  clean_name_tokens (clean_name_value value)

/-- `_label_extract_name` (extraction.py): pass 1 takes same-line values
after a name label; pass 2 (only when pass 1 found nothing) takes the
first acceptable line among the two lines after each label. -/
def _label_extract_name (lines : List Str) : List Str :=
  let pass1 := lines.filterMap fun line =>
    if !has_name_label line then none
    else
      let value := labelStrippedValue line
      if !value.isEmpty && !looks_like_non_name_label value &&
          (6/10 : ℚ) < _name_score value then some value
      else none
  if !pass1.isEmpty then pass1
  else
    (List.range lines.length).filterMap fun idx =>
      if !has_name_label (lines.getD idx []) then none
      else
        (List.range' (idx + 1) (min (idx + 3) lines.length - (idx + 1))).findSome?
          fun j =>
            let nxt := clean_name_tokens (clean_name_value (lines.getD j []))
            if has_name_label nxt then none
            else if looks_like_non_name_label nxt then none
            else if (3/4 : ℚ) < _name_score nxt then some nxt
            else none

/-- Stable insertion into a score-descending list (earlier elements first
among equal scores). -/
def insertDesc (x : Str × ℚ) : List (Str × ℚ) → List (Str × ℚ)
  | [] => [x]
  | y :: t => if x.2 < y.2 then y :: insertDesc x t else x :: y :: t

/-- Python's stable `sorted(..., key=lambda x: x[1], reverse=True)`. -/
def sortByScoreDesc : List (Str × ℚ) → List (Str × ℚ)
  | [] => []
  | x :: t => insertDesc x (sortByScoreDesc t)

/-- `_pick_name` (extraction.py): labeled candidates, else up to three
lines of score above 0.55 in descending score order; the first candidate
is the name. -/
def _pick_name (lines : List Str) : Option Str × List Str :=
  let candidates := _label_extract_name lines
  let candidates :=
    if candidates.isEmpty then
      (((sortByScoreDesc (lines.map (fun l => (l, _name_score l)))).filter
        (fun p => (11/20 : ℚ) < p.2)).map (·.1)).take 3
    else candidates
  match candidates with
  | [] => (none, [])
  | c :: _ => (some c, candidates)

/-- `_doc_hint` (extraction.py). -/
def _doc_hint (full_text : Str) : Option Str :=
  let text := asciiLower full_text
  if strContains text "civil id".data ||
      strContains text "البطاقة المدنية".data ||
      strContains text "بطاقة مدنية".data then
    some "civil_id".data
  else if strContains text "statement".data ||
      strContains text "bank".data ||
      strContains text "كشف حساب".data then
    some "bank_statement".data
  else none

/-- `extract_fields` (extraction.py): the extraction facade. -/
def extract_fields (today : Date) (ocr_result : OCRResult) : ExtractedFields :=
  let lines := (ocr_result.lines.filter
    (fun l => !(pyStrip l.text).isEmpty)).map (fun l => _clean_line l.text)
  let full_text :=
    if !lines.isEmpty then List.intercalate ['\n'] lines
    else _clean_line ocr_result.full_text
  let civil_id := _pick_civil_id today lines
  let de := _pick_dob_and_expiry today lines civil_id
  let nc := _pick_name lines
  { civil_id := civil_id
    birth_date := de.1
    expiry_date := de.2
    name := nc.1
    doc_type_hint := _doc_hint full_text
    candidate_names := nc.2
    raw_lines := lines }

/-! ## FURTHER DEFINITIONS MARKER -/

/-! # Theorems -/

theorem isPyDigit_of_isDigit {c : Char} (h : c.isDigit = true) :
    isPyDigit c = true := by
  simp [isPyDigit, h]

theorem digitChar_isDigit {d : Nat} (h : d ≤ 9) :
    (digitChar d).isDigit = true := by
  interval_cases d <;> decide

theorem pyDigitVal_digitChar {d : Nat} (h : d ≤ 9) :
    pyDigitVal (digitChar d) = d := by
  interval_cases d <;> decide

theorem checksumTotal_mod_le (s : Str) : (checksumTotal s : Int) % 11 ≤ 10 := by
  have h : (checksumTotal s : Int) % 11 < 11 :=
    Int.emod_lt_of_pos _ (by norm_num)
  omega

theorem checksumTotal_mod_nonneg (s : Str) :
    0 ≤ (checksumTotal s : Int) % 11 :=
  Int.emod_nonneg _ (by norm_num)

theorem digitsN_of_ascii {n : Nat} {p : Str} (hlen : p.length = n)
    (hdig : p.all Char.isDigit = true) : digitsN n p = true := by
  simp only [digitsN, Bool.and_eq_true, beq_iff_eq, List.all_eq_true]
  rw [List.all_eq_true] at hdig
  exact ⟨hlen, fun c hc => isPyDigit_of_isDigit (hdig c hc)⟩

/-- C1: for every 11-character ASCII digit string `p`,
`compute_civil_id_check_digit p` returns `11 - (Σ digit[i]·weight[i]) % 11`
exactly when that value lies in `[0, 9]` and `none` otherwise; whenever it
returns a digit `d`, appending `d` to `p` yields a string accepted by
`validate_civil_id_checksum`; and any string accepted by
`validate_civil_id_checksum` is 12 digits whose last digit is the computed
check digit of its first 11 digits. -/
theorem C1_checksum_algorithm (p s : Str)
    (hp : p.length = 11 ∧ p.all Char.isDigit = true)
    (hs : validate_civil_id_checksum s = true) :
    (compute_civil_id_check_digit p =
        if 0 ≤ 11 - (checksumTotal p : Int) % 11 ∧
            11 - (checksumTotal p : Int) % 11 ≤ 9
        then some (11 - (checksumTotal p : Int) % 11) else none)
      ∧ (∀ d : Int, compute_civil_id_check_digit p = some d →
          0 ≤ d ∧ d ≤ 9 ∧
            validate_civil_id_checksum (p ++ [digitChar d.toNat]) = true)
      ∧ digitsN 12 s = true
      ∧ compute_civil_id_check_digit (s.take 11)
          = some (pyDigitVal (s.getLastD '0') : Int) := by
  obtain ⟨hlen, hdig⟩ := hp
  have hdigN : digitsN 11 p = true := digitsN_of_ascii hlen hdig
  have hm0 : 0 ≤ (checksumTotal p : Int) % 11 := checksumTotal_mod_nonneg p
  have hm1 : (checksumTotal p : Int) % 11 ≤ 10 := checksumTotal_mod_le p
  refine ⟨?_, ?_, ?_, ?_⟩
  · unfold compute_civil_id_check_digit
    simp only [hdigN, if_true]
    split_ifs <;> first | rfl | omega
  · intro d hd
    unfold compute_civil_id_check_digit at hd
    simp only [hdigN, if_true] at hd
    split_ifs at hd with hrange
    have hde : d = 11 - (checksumTotal p : Int) % 11 := by
      exact (Option.some_inj.mp hd).symm
    have hd0 : 0 ≤ d := by omega
    have hd9 : d ≤ 9 := by omega
    refine ⟨hd0, hd9, ?_⟩
    have hdn9 : d.toNat ≤ 9 := by omega
    have hcdig : (digitChar d.toNat).isDigit = true := digitChar_isDigit hdn9
    have hlen12 : (p ++ [digitChar d.toNat]).length = 12 := by
      simp [hlen]
    have hall12 : (p ++ [digitChar d.toNat]).all isPyDigit = true := by
      simp only [List.all_append, Bool.and_eq_true, List.all_cons,
        List.all_nil, Bool.and_true]
      constructor
      · rw [List.all_eq_true] at hdig ⊢
        exact fun c hc => isPyDigit_of_isDigit (hdig c hc)
      · exact isPyDigit_of_isDigit hcdig
    have hdigN12 : digitsN 12 (p ++ [digitChar d.toNat]) = true := by
      simp [digitsN, hlen12, hall12]
    have htake : (p ++ [digitChar d.toNat]).take 11 = p := by
      have := List.take_left p [digitChar d.toNat]
      rwa [hlen] at this
    have hlast : (p ++ [digitChar d.toNat]).getLastD '0' = digitChar d.toNat := by
      simp
    unfold validate_civil_id_checksum
    simp only [hdigN12, if_true, htake, hlast]
    unfold compute_civil_id_check_digit
    simp only [hdigN, if_true]
    split_ifs
    have hval : pyDigitVal (digitChar d.toNat) = d.toNat :=
      pyDigitVal_digitChar hdn9
    simp only [hval]
    have : (d.toNat : Int) = d := by omega
    rw [this, hde]
    simp
  · unfold validate_civil_id_checksum at hs
    split_ifs at hs with h12
    exact h12
  · unfold validate_civil_id_checksum at hs
    split_ifs at hs with h12
    cases hcd : compute_civil_id_check_digit (s.take 11) with
    | none => rw [hcd] at hs; simp at hs
    | some e =>
      rw [hcd] at hs
      simp only [beq_iff_eq] at hs
      rw [hs]

/-- Witness for C1: concrete prefix `"29001011234"` (check digit 6) and the
concrete accepted identifier `"290010112346"`. -/
theorem C1_checksum_algorithm_witness :
    ("29001011234".data.length = 11 ∧ "29001011234".data.all Char.isDigit = true)
    ∧ validate_civil_id_checksum "290010112346".data = true
    ∧ (compute_civil_id_check_digit "29001011234".data =
        if 0 ≤ 11 - (checksumTotal "29001011234".data : Int) % 11 ∧
            11 - (checksumTotal "29001011234".data : Int) % 11 ≤ 9
        then some (11 - (checksumTotal "29001011234".data : Int) % 11) else none) :=
  ⟨⟨by decide, by decide⟩, by decide,
    (C1_checksum_algorithm "29001011234".data "290010112346".data
      ⟨by decide, by decide⟩ (by decide)).1⟩

/-- C3: the retry candidate ranking is transitive; it holds of `A` over `B`
exactly when `(fieldScore A, meanConfidence A)` is lexicographically greater
than `(fieldScore B, meanConfidence B)`; it is total (any two candidates are
strictly ordered or have equal rank pairs); and folding the replacement rule
over synthetic candidates with rank pairs `(1, 0.9)`, `(2, 0.5)`, `(2, 0.7)`
selects the candidate with field score 2 and confidence 0.7. -/
theorem C3_retry_ranking (ao bo co : OCRResult) (af bf cf : ExtractedFields)
    (hab : _is_better_candidate ao af bo bf = true)
    (hbc : _is_better_candidate bo bf co cf = true) :
    _is_better_candidate ao af co cf = true
    ∧ (∀ xo yo : OCRResult, ∀ xf yf : ExtractedFields,
        (_is_better_candidate xo xf yo yf = true ↔
          (_field_score yf < _field_score xf ∨
            (_field_score xf = _field_score yf ∧
              yo.mean_confidence < xo.mean_confidence))))
    ∧ (∀ xo yo : OCRResult, ∀ xf yf : ExtractedFields,
        _is_better_candidate xo xf yo yf = true ∨
          _is_better_candidate yo yf xo xf = true ∨
          ((_field_score xf, xo.mean_confidence) =
            (_field_score yf, yo.mean_confidence)))
    ∧ foldBestCandidate (exOCR (9/10), exFieldsHintOnly)
        [(exOCR (5/10), exFieldsNameOnly), (exOCR (7/10), exFieldsNameOnly)]
        = (exOCR (7/10), exFieldsNameOnly)
    ∧ _field_score exFieldsHintOnly = 1 ∧ _field_score exFieldsNameOnly = 2 := by
  have hiff : ∀ xo yo : OCRResult, ∀ xf yf : ExtractedFields,
      (_is_better_candidate xo xf yo yf = true ↔
        (_field_score yf < _field_score xf ∨
          (_field_score xf = _field_score yf ∧
            yo.mean_confidence < xo.mean_confidence))) := by
    intro xo yo xf yf
    unfold _is_better_candidate rankGt
    simp [decide_eq_true_eq]
  refine ⟨?_, hiff, ?_, ?_, ?_, ?_⟩
  · rw [hiff] at hab hbc ⊢
    rcases hab with h1 | ⟨h1, h2⟩ <;> rcases hbc with h3 | ⟨h3, h4⟩
    · exact Or.inl (h3.trans h1)
    · exact Or.inl (h3 ▸ h1)
    · exact Or.inl (h1 ▸ h3)
    · exact Or.inr ⟨h1.trans h3, h4.trans h2⟩
  · intro xo yo xf yf
    rw [hiff, hiff]
    rcases lt_trichotomy (_field_score xf) (_field_score yf) with h | h | h
    · exact Or.inr (Or.inl (Or.inl h))
    · rcases lt_trichotomy xo.mean_confidence yo.mean_confidence with hc | hc | hc
      · exact Or.inr (Or.inl (Or.inr ⟨h.symm, hc⟩))
      · exact Or.inr (Or.inr (by rw [h, hc]))
      · exact Or.inl (Or.inr ⟨h, hc⟩)
    · exact Or.inl (Or.inl h)
  · have h1 : _is_better_candidate (exOCR (5/10)) exFieldsNameOnly
        (exOCR (9/10)) exFieldsHintOnly = true := by
      norm_num [_is_better_candidate, rankGt, _field_score, exOCR,
        exFieldsNameOnly, exFieldsHintOnly, optTruthy]
    have h2 : _is_better_candidate (exOCR (7/10)) exFieldsNameOnly
        (exOCR (5/10)) exFieldsNameOnly = true := by
      norm_num [_is_better_candidate, rankGt, _field_score, exOCR,
        exFieldsNameOnly, optTruthy]
    simp [foldBestCandidate, h1, h2]
  · norm_num [_field_score, exFieldsHintOnly, optTruthy]
  · norm_num [_field_score, exFieldsNameOnly, optTruthy]

/-- Witness for C3 at concrete candidates: field-score-2/confidence-0.7
outranks field-score-2/confidence-0.5, which outranks
field-score-1/confidence-0.9 (both hypotheses discharged concretely). -/
theorem C3_retry_ranking_witness :
    (_is_better_candidate (exOCR (7/10)) exFieldsNameOnly
        (exOCR (5/10)) exFieldsNameOnly = true)
    ∧ (_is_better_candidate (exOCR (5/10)) exFieldsNameOnly
        (exOCR (9/10)) exFieldsHintOnly = true)
    ∧ _is_better_candidate (exOCR (7/10)) exFieldsNameOnly
        (exOCR (9/10)) exFieldsHintOnly = true := by
  have hab : _is_better_candidate (exOCR (7/10)) exFieldsNameOnly
      (exOCR (5/10)) exFieldsNameOnly = true := by
    norm_num [_is_better_candidate, rankGt, _field_score, exOCR,
      exFieldsNameOnly, optTruthy]
  have hbc : _is_better_candidate (exOCR (5/10)) exFieldsNameOnly
      (exOCR (9/10)) exFieldsHintOnly = true := by
    norm_num [_is_better_candidate, rankGt, _field_score, exOCR,
      exFieldsNameOnly, exFieldsHintOnly, optTruthy]
  exact ⟨hab, hbc,
    (C3_retry_ranking (exOCR (7/10)) (exOCR (5/10)) (exOCR (9/10))
      exFieldsNameOnly exFieldsNameOnly exFieldsHintOnly hab hbc).1⟩

/-! ### Helper lemmas about `validate_fields` -/

theorem optTruthy_false_getD {o : Option Str} (h : optTruthy o = false) :
    o.getD [] = [] := by
  cases o with
  | none => rfl
  | some s =>
    simp only [optTruthy, Bool.not_eq_true'] at h
    simpa [Option.getD] using List.isEmpty_iff.mp (by simpa using h)

theorem digitsN_false_nil {n : Nat} (h : n ≠ 0) : digitsN n [] = false := by
  simp [digitsN, h, Ne.symm h]

theorem validate_checksum_false_of_not12 {s : Str}
    (h : digitsN 12 s = false) : validate_civil_id_checksum s = false := by
  unfold validate_civil_id_checksum
  simp [h]

theorem extract_dob_none_of_not12 {today : Date} {s : Str}
    (h : digitsN 12 s = false) : extract_dob_from_civil_id today s = none := by
  unfold extract_dob_from_civil_id
  simp [h]

theorem digitsN_length {n : Nat} {s : Str} (h : digitsN n s = true) :
    s.length = n := by
  simp only [digitsN, Bool.and_eq_true, beq_iff_eq] at h
  exact h.1

theorem optTruthy_of_digits12 {o : Option Str}
    (h : digitsN 12 (o.getD []) = true) : optTruthy o = true := by
  cases o with
  | none => simp [digitsN] at h
  | some s =>
    have := digitsN_length (s := s) (by simpa using h)
    cases s with
    | nil => simp at this
    | cons a t => simp [optTruthy]

theorem validate_fields_format_valid (env : NameEnv) (today : Date)
    (fields : ExtractedFields) (settings : Settings)
    (expected_name expected_dob : Option Str) :
    (validate_fields env today fields settings expected_name expected_dob).civil_id_format_valid =
      (if optTruthy fields.civil_id then
        some (digitsN 12 (fields.civil_id.getD [])) else none) := by
  unfold validate_fields
  cases hc : optTruthy fields.civil_id
  · simp [hc]
  · cases hd : digitsN 12 (fields.civil_id.getD []) <;> simp [hc, hd]

theorem validate_fields_checksum_valid (env : NameEnv) (today : Date)
    (fields : ExtractedFields) (settings : Settings)
    (expected_name expected_dob : Option Str) :
    (validate_fields env today fields settings expected_name expected_dob).civil_id_checksum_valid =
      (if optTruthy fields.civil_id then
        some (validate_civil_id_checksum (fields.civil_id.getD [])) else none) := by
  unfold validate_fields
  cases hc : optTruthy fields.civil_id
  · simp [hc]
  · cases hd : digitsN 12 (fields.civil_id.getD [])
    · simp [hc, hd, validate_checksum_false_of_not12 hd]
    · simp [hc, hd]

theorem validate_fields_dob_consistent (env : NameEnv) (today : Date)
    (fields : ExtractedFields) (settings : Settings)
    (expected_name expected_dob : Option Str) :
    (validate_fields env today fields settings expected_name expected_dob).civil_id_dob_consistent =
      (match parse_iso_date fields.birth_date,
          extract_dob_from_civil_id today (fields.civil_id.getD []) with
        | some e, some c => some (e == c)
        | _, _ => none) := by
  unfold validate_fields
  cases hc : optTruthy fields.civil_id
  · have hgd : fields.civil_id.getD [] = [] := optTruthy_false_getD hc
    have he : extract_dob_from_civil_id today (fields.civil_id.getD []) = none := by
      rw [hgd]; exact extract_dob_none_of_not12 (digitsN_false_nil (by norm_num))
    cases hp : parse_iso_date fields.birth_date <;> simp [hc, he, hp]
  · cases hd : digitsN 12 (fields.civil_id.getD [])
    · have he : extract_dob_from_civil_id today (fields.civil_id.getD []) = none :=
        extract_dob_none_of_not12 hd
      cases hp : parse_iso_date fields.birth_date <;> simp [hc, hd, he, hp]
    · cases hp : parse_iso_date fields.birth_date <;>
        cases he : extract_dob_from_civil_id today (fields.civil_id.getD []) <;>
        simp [hc, hd, hp, he]

theorem validate_fields_dob_plausible (env : NameEnv) (today : Date)
    (fields : ExtractedFields) (settings : Settings)
    (expected_name expected_dob : Option Str) :
    ValidationResult.dob_plausible
        (validate_fields env today fields settings expected_name expected_dob) =
      is_plausible_dob today
        (match parse_iso_date fields.birth_date with
          | some d => some d
          | none => parse_iso_date expected_dob)
        settings.min_age settings.max_age := by
  unfold validate_fields
  rfl

theorem validate_fields_name_match (env : NameEnv) (today : Date)
    (fields : ExtractedFields) (settings : Settings)
    (expected_name expected_dob : Option Str) :
    (validate_fields env today fields settings expected_name expected_dob).name_match =
      (if optTruthy expected_name && optTruthy fields.name then
        some (decide ((84 : ℚ)/100 ≤
          name_similarity env (expected_name.getD []) (fields.name.getD [])))
      else none) := by
  unfold validate_fields
  cases hn : (optTruthy expected_name && optTruthy fields.name) <;> simp [hn]

theorem validate_fields_overall (env : NameEnv) (today : Date)
    (fields : ExtractedFields) (settings : Settings)
    (expected_name expected_dob : Option Str) :
    (validate_fields env today fields settings expected_name expected_dob).overall_pass =
      !((!(optTruthy fields.civil_id || optTruthy fields.birth_date ||
            optTruthy fields.name))
        || (optTruthy fields.civil_id && !digitsN 12 (fields.civil_id.getD []))
        || (optTruthy fields.civil_id &&
            !validate_civil_id_checksum (fields.civil_id.getD []))
        || (match parse_iso_date fields.birth_date,
              extract_dob_from_civil_id today (fields.civil_id.getD []) with
            | some e, some c => e != c
            | _, _ => false)
        || (is_plausible_dob today
              (match parse_iso_date fields.birth_date with
                | some d => some d
                | none => parse_iso_date expected_dob)
              settings.min_age settings.max_age == some false)
        || (optTruthy expected_name && optTruthy fields.name &&
            !decide ((84 : ℚ)/100 ≤
              name_similarity env (expected_name.getD []) (fields.name.getD [])))) := by
  unfold validate_fields
  cases hc : optTruthy fields.civil_id
  · have hgd : fields.civil_id.getD [] = [] := optTruthy_false_getD hc
    have he : extract_dob_from_civil_id today (fields.civil_id.getD []) = none := by
      rw [hgd]; exact extract_dob_none_of_not12 (digitsN_false_nil (by norm_num))
    cases hp : parse_iso_date fields.birth_date <;>
      cases hn : (optTruthy expected_name && optTruthy fields.name) <;>
      simp [hc, he, hp, hn, Bool.and_assoc]
  · cases hd : digitsN 12 (fields.civil_id.getD [])
    · have he : extract_dob_from_civil_id today (fields.civil_id.getD []) = none :=
        extract_dob_none_of_not12 hd
      have hv : validate_civil_id_checksum (fields.civil_id.getD []) = false :=
        validate_checksum_false_of_not12 hd
      cases hp : parse_iso_date fields.birth_date <;>
        cases hn : (optTruthy expected_name && optTruthy fields.name) <;>
        simp [hc, hd, he, hv, hp, hn, Bool.and_assoc]
    · cases hp : parse_iso_date fields.birth_date <;>
        cases he : extract_dob_from_civil_id today (fields.civil_id.getD []) <;>
        cases hn : (optTruthy expected_name && optTruthy fields.name) <;>
        simp [hc, hd, hp, he, hn, bne, Bool.and_assoc]

theorem validate_fields_no_key_warning (env : NameEnv) (today : Date)
    (fields : ExtractedFields) (settings : Settings)
    (expected_name expected_dob : Option Str)
    (h1 : optTruthy fields.civil_id = false)
    (h2 : optTruthy fields.birth_date = false)
    (h3 : optTruthy fields.name = false) :
    "No key fields were extracted from OCR output.".data ∈
      (validate_fields env today fields settings expected_name expected_dob).warnings := by
  unfold validate_fields
  simp [h1, h2, h3]

theorem boolSixBridge {b1 b2 b3 b4 b5 b6 : Bool} {p1 p2 p3 p4 p5 p6 : Prop}
    (h1 : b1 = true ↔ p1) (h2 : b2 = true ↔ p2) (h3 : b3 = true ↔ p3)
    (h4 : b4 = true ↔ p4) (h5 : b5 = true ↔ p5) (h6 : b6 = true ↔ p6) :
    ((!(b1 || b2 || b3 || b4 || b5 || b6)) = false ↔
      (p1 ∨ p2 ∨ p3 ∨ p4 ∨ p5 ∨ p6)) := by
  rw [← h1, ← h2, ← h3, ← h4, ← h5, ← h6]
  cases b1 <;> cases b2 <;> cases b3 <;> cases b4 <;> cases b5 <;> cases b6 <;>
    simp

/-- C2: `validate_fields` returns `overall_pass = false` iff at least one
hard failure holds: no key field extracted; an identifier present but not
12 digits; an identifier present with a failing checksum; OCR and
identifier-decoded birth dates both present and different; an implausible
resolved birth date; or an expected and extracted name whose similarity is
below 0.84. On inputs with no identifier, birth date, or name, the result
fails with the no-key-fields warning. -/
theorem C2_overall_pass_iff (env : NameEnv) (today : Date)
    (fields : ExtractedFields) (settings : Settings)
    (expected_name expected_dob : Option Str) :
    ((validate_fields env today fields settings expected_name expected_dob).overall_pass
        = false ↔
      ((optTruthy fields.civil_id = false ∧ optTruthy fields.birth_date = false ∧
          optTruthy fields.name = false)
        ∨ (optTruthy fields.civil_id = true ∧
            digitsN 12 (fields.civil_id.getD []) = false)
        ∨ (optTruthy fields.civil_id = true ∧
            validate_civil_id_checksum (fields.civil_id.getD []) = false)
        ∨ (∃ e c : Date, parse_iso_date fields.birth_date = some e ∧
            extract_dob_from_civil_id today (fields.civil_id.getD []) = some c ∧
            e ≠ c)
        ∨ is_plausible_dob today
            (match parse_iso_date fields.birth_date with
              | some d => some d
              | none => parse_iso_date expected_dob)
            settings.min_age settings.max_age = some false
        ∨ (optTruthy expected_name = true ∧ optTruthy fields.name = true ∧
            name_similarity env (expected_name.getD []) (fields.name.getD [])
              < (84 : ℚ)/100)))
    ∧ (optTruthy fields.civil_id = false → optTruthy fields.birth_date = false →
        optTruthy fields.name = false →
        (validate_fields env today fields settings expected_name expected_dob).overall_pass
            = false ∧
          "No key fields were extracted from OCR output.".data ∈
            (validate_fields env today fields settings expected_name expected_dob).warnings) := by
  constructor
  · rw [validate_fields_overall]
    apply boolSixBridge
    · cases h1 : optTruthy fields.civil_id <;>
        cases h2 : optTruthy fields.birth_date <;>
        cases h3 : optTruthy fields.name <;> simp [h1, h2, h3]
    · cases h1 : optTruthy fields.civil_id <;>
        cases h2 : digitsN 12 (fields.civil_id.getD []) <;> simp [h1, h2]
    · cases h1 : optTruthy fields.civil_id <;>
        cases h2 : validate_civil_id_checksum (fields.civil_id.getD []) <;>
        simp [h1, h2]
    · cases hp : parse_iso_date fields.birth_date <;>
        cases he : extract_dob_from_civil_id today (fields.civil_id.getD []) <;>
        simp [hp, he, bne_iff_ne]
    · exact beq_iff_eq
    · cases h1 : optTruthy expected_name <;>
        cases h2 : optTruthy fields.name <;> simp [h1, h2, not_le]
  · intro h1 h2 h3
    refine ⟨?_, validate_fields_no_key_warning env today fields settings
      expected_name expected_dob h1 h2 h3⟩
    rw [validate_fields_overall]
    simp [h1, h2, h3]

/-- Witness for C2: the empty extraction under the concrete ASCII
environment fails validation with the no-key-fields warning. -/
theorem C2_overall_pass_iff_witness :
    (validate_fields asciiNameEnv exToday emptyFields {} none none).overall_pass
        = false ∧
      "No key fields were extracted from OCR output.".data ∈
        (validate_fields asciiNameEnv exToday emptyFields {} none none).warnings :=
  (C2_overall_pass_iff asciiNameEnv exToday emptyFields {} none none).2
    rfl rfl rfl

theorem validate_fields_checksum_warning (env : NameEnv) (today : Date)
    (fields : ExtractedFields) (settings : Settings)
    (expected_name expected_dob : Option Str)
    (htr : optTruthy fields.civil_id = true)
    (h12 : digitsN 12 (fields.civil_id.getD []) = true)
    (hbad : validate_civil_id_checksum (fields.civil_id.getD []) = false) :
    "Civil ID checksum failed (community algorithm).".data ∈
      (validate_fields env today fields settings expected_name expected_dob).warnings := by
  unfold validate_fields
  cases hp : parse_iso_date fields.birth_date <;>
    cases he : extract_dob_from_civil_id today (fields.civil_id.getD []) <;>
    cases hq : parse_iso_date expected_dob <;>
    simp [htr, h12, hbad, hp, he, hq]

theorem validate_fields_format_warning (env : NameEnv) (today : Date)
    (fields : ExtractedFields) (settings : Settings)
    (expected_name expected_dob : Option Str)
    (htr : optTruthy fields.civil_id = true)
    (h12 : digitsN 12 (fields.civil_id.getD []) = false) :
    "Civil ID format is invalid (must be 12 digits).".data ∈
      (validate_fields env today fields settings expected_name expected_dob).warnings := by
  unfold validate_fields
  simp [htr, h12]

/-- C6: when the identifier is present, 12 digits, and checksum-invalid,
`validate_fields` still records the birth-date consistency verdict computed
from the identifier-decoded date (equality with the OCR date when both
exist), while the checksum failure itself only yields `checksum_valid =
false`, a warning, and a failing `overall_pass`. -/
theorem C6_checksum_failure_not_suppressing (env : NameEnv) (today : Date)
    (fields : ExtractedFields) (settings : Settings)
    (expected_name expected_dob : Option Str) (cid : Str)
    (hcid : fields.civil_id = some cid)
    (h12 : digitsN 12 cid = true)
    (hbad : validate_civil_id_checksum cid = false) :
    ((validate_fields env today fields settings expected_name expected_dob).civil_id_dob_consistent =
        (match parse_iso_date fields.birth_date,
            extract_dob_from_civil_id today cid with
          | some e, some c => some (e == c)
          | _, _ => none))
    ∧ (validate_fields env today fields settings expected_name expected_dob).civil_id_checksum_valid
        = some false
    ∧ "Civil ID checksum failed (community algorithm).".data ∈
        (validate_fields env today fields settings expected_name expected_dob).warnings
    ∧ (validate_fields env today fields settings expected_name expected_dob).overall_pass
        = false := by
  have hgd : fields.civil_id.getD [] = cid := by rw [hcid]; rfl
  have htr : optTruthy fields.civil_id = true :=
    optTruthy_of_digits12 (by rw [hgd]; exact h12)
  refine ⟨?_, ?_, ?_, ?_⟩
  · rw [validate_fields_dob_consistent, hgd]
  · rw [validate_fields_checksum_valid, hgd]
    simp [htr, hbad]
  · exact validate_fields_checksum_warning env today fields settings
      expected_name expected_dob htr (hgd ▸ h12) (hgd ▸ hbad)
  · rw [validate_fields_overall, hgd]
    simp [htr, hbad]

/-- Witness for C6: identifier `"290010112345"` (true check digit 6) with
OCR birth date `"01/01/1990"`; decoded date is 01/01/1990, so consistency
is recorded `true` despite the failing checksum. -/
theorem C6_checksum_failure_not_suppressing_witness :
    (badChecksumFields.civil_id = some "290010112345".data
      ∧ digitsN 12 "290010112345".data = true
      ∧ validate_civil_id_checksum "290010112345".data = false)
    ∧ (validate_fields asciiNameEnv exToday badChecksumFields {} none none).civil_id_dob_consistent =
        (match parse_iso_date badChecksumFields.birth_date,
            extract_dob_from_civil_id exToday "290010112345".data with
          | some e, some c => some (e == c)
          | _, _ => none) :=
  ⟨⟨rfl, by decide, by decide⟩,
    (C6_checksum_failure_not_suppressing asciiNameEnv exToday badChecksumFields
      {} none none "290010112345".data rfl (by decide) (by decide)).1⟩

/-- C7 counterexample: with identifier `"123"` (present, not 12 digits),
`validate_fields` sets `civil_id_checksum_valid` to `False` — it does not
remain absent as the claim states. -/
theorem C7_counterexample_checksum_set_on_bad_format :
    (validate_fields asciiNameEnv exToday shortIdFields {} none none).civil_id_checksum_valid
        = some false
      ∧ (validate_fields asciiNameEnv exToday shortIdFields {} none none).civil_id_checksum_valid
          ≠ none := by
  have h : (validate_fields asciiNameEnv exToday shortIdFields {} none none).civil_id_checksum_valid
      = some false := by
    rw [validate_fields_checksum_valid]
    decide
  exact ⟨h, by rw [h]; simp⟩

/-- C7 amended: for a present identifier, `civil_id_checksum_valid` carries
the checksum result when the format is valid (with a warning on checksum
failure); when the format is invalid it is set to `False` (with a format
warning), not left absent; it is absent only when no identifier is
present. -/
theorem C7_checksum_valid_assignment (env : NameEnv) (today : Date)
    (fields : ExtractedFields) (settings : Settings)
    (expected_name expected_dob : Option Str)
    (htr : optTruthy fields.civil_id = true) :
    ((digitsN 12 (fields.civil_id.getD []) = true →
        (validate_fields env today fields settings expected_name expected_dob).civil_id_checksum_valid
            = some (validate_civil_id_checksum (fields.civil_id.getD []))
          ∧ (validate_civil_id_checksum (fields.civil_id.getD []) = false →
              "Civil ID checksum failed (community algorithm).".data ∈
                (validate_fields env today fields settings expected_name expected_dob).warnings))
      ∧ (digitsN 12 (fields.civil_id.getD []) = false →
          (validate_fields env today fields settings expected_name expected_dob).civil_id_checksum_valid
              = some false
            ∧ "Civil ID format is invalid (must be 12 digits).".data ∈
                (validate_fields env today fields settings expected_name expected_dob).warnings)) := by
  constructor
  · intro h12
    refine ⟨?_, fun hbad => validate_fields_checksum_warning env today fields
      settings expected_name expected_dob htr h12 hbad⟩
    rw [validate_fields_checksum_valid]
    simp [htr]
  · intro h12
    refine ⟨?_, validate_fields_format_warning env today fields settings
      expected_name expected_dob htr h12⟩
    rw [validate_fields_checksum_valid]
    simp [htr, validate_checksum_false_of_not12 h12]

/-- Witness for C7's amended statement at the concrete short identifier
`"123"`. -/
theorem C7_checksum_valid_assignment_witness :
    optTruthy shortIdFields.civil_id = true
      ∧ digitsN 12 (shortIdFields.civil_id.getD []) = false
      ∧ ((validate_fields asciiNameEnv exToday shortIdFields {} none none).civil_id_checksum_valid
            = some false
          ∧ "Civil ID format is invalid (must be 12 digits).".data ∈
              (validate_fields asciiNameEnv exToday shortIdFields {} none none).warnings) :=
  ⟨by decide, by decide,
    (C7_checksum_valid_assignment asciiNameEnv exToday shortIdFields {} none none
      (by decide)).2 (by decide)⟩

/-! ### Scoreboard lemmas (C5) -/

theorem find_append_singleton {sb : Scoreboard} {k : Str} {v : ℚ}
    (hall : ∀ p ∈ sb, (p.1 == k) = false) :
    (sb ++ [(k, v)]).find? (fun p => p.1 == k) = some (k, v) := by
  induction sb with
  | nil => simp [List.find?]
  | cons p t ih =>
    simp only [List.cons_append, List.find?, hall p (List.mem_cons_self p t)]
    exact ih fun q hq => hall q (List.mem_cons_of_mem p hq)

theorem sbGet_sbSet_self (sb : Scoreboard) (k : Str) (v : ℚ) :
    sbGet (sbSet sb k v) k = some v := by
  unfold sbSet
  by_cases h : sb.any (fun p => p.1 == k)
  · simp only [h, if_true]
    induction sb with
    | nil => simp at h
    | cons p t ih =>
      by_cases hp : p.1 == k
      · simp [sbGet, List.find?, hp]
      · simp only [List.any_cons, hp, Bool.false_or] at h
        simp only [List.map_cons, if_neg hp]
        unfold sbGet at ih ⊢
        simp only [List.find?, hp]
        exact ih h
  · rw [if_neg (by simpa using h)]
    unfold sbGet
    rw [find_append_singleton]
    · simp
    · intro p hp
      by_contra hc
      rw [Bool.not_eq_false] at hc
      exact absurd (List.any_eq_true.mpr ⟨p, hp, hc⟩) h

/-- C5: a candidate's score is exactly the sum of the spec's components
(+11 labeled context, +8 own-line label, +0.8 non-window, +1 century
marker, +2 decodable birth date, +2 plausible age, +7 checksum pass /
−2 checksum fail); and the scoreboard keeps the highest score per
candidate, leaving the board unchanged on a tie or a lower score. -/
theorem C5_candidate_scoring (today : Date) (cid line : Str)
    (lc fw : Bool) (sb : Scoreboard)
    (h12 : digitsN 12 cid = true) :
    (_candidate_score today cid line lc fw =
        (if lc then 11 else 0) + (if _has_civil_label line then 8 else 0) +
          (if !fw then 8/10 else 0) +
          (if cid.getD 0 ' ' == '2' || cid.getD 0 ' ' == '3' then 1 else 0) +
          (if (_civil_id_to_dob today cid).isSome then 2 else 0) +
          (if (match _civil_id_to_dob today cid with
              | some d => _dob_plausible today d
              | none => false) then 2 else 0) +
          (if _civil_checksum_valid cid then 7 else -2))
    ∧ (sbGet sb cid = none →
        sbGet (_push_candidate today sb cid line lc fw) cid =
          some (_candidate_score today cid line lc fw))
    ∧ (∀ cur, sbGet sb cid = some cur →
        (cur < _candidate_score today cid line lc fw →
          sbGet (_push_candidate today sb cid line lc fw) cid =
            some (_candidate_score today cid line lc fw))
        ∧ (_candidate_score today cid line lc fw ≤ cur →
            _push_candidate today sb cid line lc fw = sb)) := by
  refine ⟨?_, ?_, ?_⟩
  · unfold _candidate_score
    cases hdob : _civil_id_to_dob today cid <;>
      (simp [hdob]; try ring_nf)
  · intro hget
    unfold _push_candidate
    simp only [h12, if_true, hget]
    exact sbGet_sbSet_self sb cid _
  · intro cur hget
    constructor
    · intro hlt
      unfold _push_candidate
      simp only [h12, if_true, hget]
      rw [if_pos hlt]
      exact sbGet_sbSet_self sb cid _
    · intro hle
      unfold _push_candidate
      simp only [h12, if_true, hget]
      rw [if_neg (not_lt.mpr hle)]

/-- Witness for C5 at the concrete candidate `"290010112346"` on a labeled
line, pushed onto the empty scoreboard. -/
theorem C5_candidate_scoring_witness :
    digitsN 12 "290010112346".data = true
      ∧ sbGet (_push_candidate exToday [] "290010112346".data
            "civil id:".data true false) "290010112346".data =
          some (_candidate_score exToday "290010112346".data
            "civil id:".data true false) :=
  ⟨by decide,
    (C5_candidate_scoring exToday "290010112346".data "civil id:".data
      true false [] (by decide)).2.1 rfl⟩

/-! ### Scoreboard maximum lemmas (C4) -/

theorem sbBest_fold_spec (t : Scoreboard) : ∀ p : Str × ℚ,
    (t.foldl (fun best q => if best.2 < q.2 then q else best) p ∈ p :: t) ∧
      p.2 ≤ (t.foldl (fun best q => if best.2 < q.2 then q else best) p).2 ∧
      ∀ q ∈ t, q.2 ≤ (t.foldl (fun best q => if best.2 < q.2 then q else best) p).2 := by
  induction t with
  | nil =>
    intro p
    exact ⟨List.mem_cons_self p [], le_refl _, by simp⟩
  | cons a t ih =>
    intro p
    simp only [List.foldl_cons]
    by_cases h : p.2 < a.2
    · rw [if_pos h]
      obtain ⟨hm, hle, hall⟩ := ih a
      refine ⟨List.mem_cons_of_mem _ hm, le_trans (le_of_lt h) hle, ?_⟩
      intro q hq
      rcases List.mem_cons.mp hq with rfl | hq2
      · exact hle
      · exact hall q hq2
    · rw [if_neg h]
      obtain ⟨hm, hle, hall⟩ := ih p
      refine ⟨?_, hle, ?_⟩
      · rcases List.mem_cons.mp hm with h1 | h1
        · rw [h1]; exact List.mem_cons_self p _
        · exact List.mem_cons_of_mem _ (List.mem_cons_of_mem a h1)
      · intro q hq
        rcases List.mem_cons.mp hq with rfl | hq2
        · exact le_trans (not_lt.mp h) hle
        · exact hall q hq2

theorem sbBest_is_max {sb : Scoreboard} (h : sb ≠ []) :
    ∃ b, sbBest sb = some b ∧ b ∈ sb ∧ ∀ q ∈ sb, q.2 ≤ b.2 := by
  cases sb with
  | nil => exact absurd rfl h
  | cons p t =>
    obtain ⟨hm, hle, hall⟩ := sbBest_fold_spec t p
    refine ⟨_, rfl, hm, ?_⟩
    intro q hq
    rcases List.mem_cons.mp hq with rfl | hq2
    · exact hle
    · exact hall q hq2

/-- C4: whenever the labeled pass produced any candidate, `_pick_civil_id`
returns the maximum-scoring entry of the labeled scoreboard — a labeled
candidate is returned, whatever the unlabeled or cross-line passes would
contain, and those passes are consulted only when the labeled scoreboard
is empty. -/
theorem C4_labeled_pass_priority (today : Date) (lines : List Str)
    (hlab : labeledScoreboard today lines ≠ []) :
    ∃ best : Str × ℚ,
      sbBest (labeledScoreboard today lines) = some best
        ∧ _pick_civil_id today lines = some best.1
        ∧ best ∈ labeledScoreboard today lines
        ∧ ∀ q ∈ labeledScoreboard today lines, q.2 ≤ best.2 := by
  obtain ⟨b, hb, hmem, hmax⟩ := sbBest_is_max hlab
  refine ⟨b, hb, ?_, hmem, hmax⟩
  have hne : lines ≠ [] := fun h => hlab (by rw [h]; rfl)
  unfold _pick_civil_id
  rw [if_neg (by simpa [List.isEmpty_iff] using hne)]
  rw [if_pos (by simpa [List.isEmpty_iff] using hlab)]
  rw [hb]
  rfl

unseal Rat.add Rat.mul Rat.inv in
theorem C4_labeled_pass_priority_witness :
    labeledScoreboard exToday ["civil id: 290010112346".data] ≠ []
      ∧ _pick_civil_id exToday ["civil id: 290010112346".data]
          = some "290010112346".data := by
  have h := C4_labeled_pass_priority exToday ["civil id: 290010112346".data]
    (by decide)
  obtain ⟨best, hb, hpick, hmem, hmax⟩ := h
  refine ⟨by decide, ?_⟩
  rw [hpick]
  have : best.1 = "290010112346".data := by
    have hb' : sbBest (labeledScoreboard exToday
        ["civil id: 290010112346".data]) = some best := hb
    have : (sbBest (labeledScoreboard exToday
        ["civil id: 290010112346".data])).map (·.1)
        = some "290010112346".data := by decide
    rw [hb'] at this
    simpa using this
  rw [this]

/-! ### Date parsing lemmas (C8) -/

theorem mkDate_some {y m d : Nat} {dt : Date} (h : mkDate y m d = some dt) :
    dt = ⟨y, m, d⟩ ∧ Date.valid dt = true := by
  unfold mkDate at h
  split at h
  · rename_i hv
    cases h
    exact ⟨rfl, hv⟩
  · cases h

theorem parse_core_spec {year month day maxy : Nat} {today : Date}
    {af : Bool} {dt : Date}
    (h : (if year < 1900 ∨ year > maxy then none
          else
            match mkDate year month day with
            | none => none
            | some parsed =>
              if !af && Date.ltb today parsed then none else some parsed)
        = some dt) :
    dt = ⟨year, month, day⟩ ∧ Date.valid dt = true ∧ 1900 ≤ year ∧
      year ≤ maxy := by
  by_cases hg : year < 1900 ∨ year > maxy
  · rw [if_pos hg] at h; cases h
  · rw [if_neg hg] at h
    push_neg at hg
    cases hmk : mkDate year month day with
    | none => rw [hmk] at h; cases h
    | some parsed =>
      rw [hmk] at h
      simp only [] at h
      obtain ⟨hp, hv⟩ := mkDate_some hmk
      by_cases hfut : (!af && Date.ltb today parsed) = true
      · rw [if_pos hfut] at h; cases h
      · rw [if_neg hfut] at h
        cases h
        exact ⟨hp, hv, hg.1, hg.2⟩

theorem _parse_date_spec {today : Date} {ds ms ys : Str} {af : Bool}
    {dt : Date} (h : _parse_date today ds ms ys af = some dt) :
    Date.valid dt = true
      ∧ dt.year =
          (if pyIntOfDigits ys < 100 then
            (if pyIntOfDigits ys ≤ today.year % 100 then 2000 + pyIntOfDigits ys
              else 1900 + pyIntOfDigits ys)
          else pyIntOfDigits ys)
      ∧ 1900 ≤ dt.year
      ∧ dt.year ≤ (if af then today.year + 30 else today.year) := by
  obtain ⟨hdt, hv, h1, h2⟩ := parse_core_spec (h := h)
  subst hdt
  exact ⟨hv, rfl, h1, h2⟩

theorem tryDateMatchAt_sep {prev : Option Char} {s : Str}
    {t : Str × Str × Str × Str} (h : tryDateMatchAt prev s = some t) :
    ∃ ch ∈ t.2.2.2, isDateSep ch = true := by
  unfold tryDateMatchAt at h
  split at h
  · cases h
  · obtain ⟨dc, _, h2⟩ := List.exists_of_findSome?_eq_some h
    cases hdc : dc.2 with
    | nil => rw [hdc] at h2; cases h2
    | cons sep1 r2 =>
      rw [hdc] at h2
      simp only [] at h2
      by_cases hsep : isDateSep sep1 = true
      · rw [if_pos hsep] at h2
        obtain ⟨mc, _, h3⟩ := List.exists_of_findSome?_eq_some h2
        cases hmc : mc.2 with
        | nil => rw [hmc] at h3; cases h3
        | cons sep2 r4 =>
          rw [hmc] at h3
          simp only [] at h3
          by_cases hsep2 : isDateSep sep2 = true
          · rw [if_pos hsep2] at h3
            obtain ⟨yc, _, h4⟩ := List.exists_of_findSome?_eq_some h3
            split at h4
            · cases h4
              refine ⟨sep1, ?_, hsep⟩
              simp
            · cases h4
          · rw [if_neg hsep2] at h3; cases h3
      · rw [if_neg hsep] at h2; cases h2

theorem scanDateMatches_sep : ∀ (fuel : Nat) (prev : Option Char) (s : Str),
    ∀ t ∈ scanDateMatches fuel prev s, ∃ ch ∈ t.2.2.2, isDateSep ch = true := by
  intro fuel
  induction fuel with
  | zero => intro prev s t ht; simp [scanDateMatches] at ht
  | succ n ih =>
    intro prev s t ht
    simp only [scanDateMatches] at ht
    cases htry : tryDateMatchAt prev s with
    | some m =>
      rw [htry] at ht
      simp only [] at ht
      rcases List.mem_cons.mp ht with rfl | ht2
      · exact tryDateMatchAt_sep htry
      · exact ih _ _ t ht2
    | none =>
      rw [htry] at ht
      cases s with
      | nil => simp at ht
      | cons c t2 =>
        simp only [] at ht
        exact ih _ _ t ht

theorem collect_elem_spec {today : Date} {lines : List Str}
    {c : DateCandidate} (hc : c ∈ _collect_date_candidates today lines) :
    c.line_index < lines.length
      ∧ Date.valid c.value = true
      ∧ 1900 ≤ c.value.year
      ∧ c.value.year ≤ today.year + 30
      ∧ ((_has_label_in_context lines c.line_index _has_dob_label = false ∧
          _has_label_in_context lines c.line_index _has_expiry_label = false) →
          ∃ t ∈ findDateTokens (normalize_digits (lines.getD c.line_index [])),
            c.raw_text = t.2.2.2) := by
  unfold _collect_date_candidates at hc
  obtain ⟨idx, hidx, hcin⟩ := List.mem_flatMap.mp hc
  have hidx' : idx < lines.length := List.mem_range.mp hidx
  rcases List.mem_append.mp hcin with h | h
  · obtain ⟨t, ht, hmk⟩ := List.mem_filterMap.mp h
    cases hp : _parse_date today t.1 t.2.1 t.2.2.1 true with
    | none => rw [hp] at hmk; cases hmk
    | some dt =>
      rw [hp] at hmk
      simp only [] at hmk
      cases hmk
      obtain ⟨hv, _, h1, h2⟩ := _parse_date_spec hp
      refine ⟨hidx', hv, h1, by simpa using h2, ?_⟩
      intro _
      exact ⟨t, ht, rfl⟩
  · by_cases hlab : (_has_label_in_context lines idx _has_dob_label ||
        _has_label_in_context lines idx _has_expiry_label) = true
    · rw [if_pos hlab] at h
      obtain ⟨t, ht, hmk⟩ := List.mem_filterMap.mp h
      cases hp : _parse_date today t.1 t.2.1 t.2.2.1 true with
      | none => rw [hp] at hmk; cases hmk
      | some dt =>
        rw [hp] at hmk
        simp only [] at hmk
        cases hmk
        obtain ⟨hv, _, h1, h2⟩ := _parse_date_spec hp
        refine ⟨hidx', hv, h1, by simpa using h2, ?_⟩
        intro hno
        rw [hno.1, hno.2] at hlab
        simp at hlab
    · rw [if_neg hlab] at h
      cases h

/-- C8: every collected date candidate has a year in
`[1900, currentYear + 30]`; every separator-pattern match of every line
with a successful parse yields a candidate; a candidate on a line without
a birth/expiry label in context always comes from the separator pattern
(its raw text contains a separator — the compact 8-digit pattern runs only
on labeled lines); and `_parse_date` pivots 2-digit years against the
current year and enforces the year window. -/
theorem C8_date_collection (today : Date) (lines : List Str) :
    (∀ c ∈ _collect_date_candidates today lines,
        Date.valid c.value = true ∧ 1900 ≤ c.value.year ∧
          c.value.year ≤ today.year + 30)
    ∧ (∀ idx, idx < lines.length →
        ∀ t ∈ findDateTokens (normalize_digits (lines.getD idx [])),
          ∀ dt, _parse_date today t.1 t.2.1 t.2.2.1 true = some dt →
            (⟨dt, idx, _has_label_in_context lines idx _has_dob_label,
              _has_label_in_context lines idx _has_expiry_label,
              _has_dob_label (normalize_digits (lines.getD idx [])),
              _has_expiry_label (normalize_digits (lines.getD idx [])),
              t.2.2.2⟩ : DateCandidate) ∈ _collect_date_candidates today lines)
    ∧ (∀ c ∈ _collect_date_candidates today lines,
        _has_label_in_context lines c.line_index _has_dob_label = false →
        _has_label_in_context lines c.line_index _has_expiry_label = false →
          ∃ ch ∈ c.raw_text, isDateSep ch = true)
    ∧ (∀ ds ms ys : Str, ∀ af : Bool, ∀ dt : Date,
        _parse_date today ds ms ys af = some dt →
          dt.year =
              (if pyIntOfDigits ys < 100 then
                (if pyIntOfDigits ys ≤ today.year % 100 then
                  2000 + pyIntOfDigits ys
                else 1900 + pyIntOfDigits ys)
              else pyIntOfDigits ys)
            ∧ 1900 ≤ dt.year
            ∧ dt.year ≤ (if af then today.year + 30 else today.year)) := by
  refine ⟨?_, ?_, ?_, ?_⟩
  · intro c hc
    obtain ⟨_, hv, h1, h2, _⟩ := collect_elem_spec hc
    exact ⟨hv, h1, h2⟩
  · intro idx hidx t ht dt hp
    unfold _collect_date_candidates
    refine List.mem_flatMap.mpr ⟨idx, List.mem_range.mpr hidx, ?_⟩
    refine List.mem_append.mpr (Or.inl ?_)
    refine List.mem_filterMap.mpr ⟨t, ht, ?_⟩
    rw [hp]
  · intro c hc h1 h2
    obtain ⟨_, _, _, _, hsep⟩ := collect_elem_spec hc
    obtain ⟨t, ht, hraw⟩ := hsep ⟨h1, h2⟩
    obtain ⟨ch, hch, hsep'⟩ := scanDateMatches_sep _ _ _ t ht
    exact ⟨ch, hraw ▸ hch, hsep'⟩
  · intro ds ms ys af dt hp
    obtain ⟨_, hy, h1, h2⟩ := _parse_date_spec hp
    exact ⟨hy, h1, h2⟩

/-- Witness for C8: a single unlabeled line containing `12/04/1999`; the
candidate year is within the window and the raw text carries the `/`
separator. -/
theorem C8_date_collection_witness :
    (0 < ["born 12/04/1999".data].length)
      ∧ (("12".data, "04".data, "1999".data, "12/04/1999".data) ∈
          findDateTokens (normalize_digits (["born 12/04/1999".data].getD 0 [])))
      ∧ _parse_date exToday "12".data "04".data "1999".data true =
          some ⟨1999, 4, 12⟩
      ∧ (⟨⟨1999, 4, 12⟩, 0,
          _has_label_in_context ["born 12/04/1999".data] 0 _has_dob_label,
          _has_label_in_context ["born 12/04/1999".data] 0 _has_expiry_label,
          _has_dob_label (normalize_digits (["born 12/04/1999".data].getD 0 [])),
          _has_expiry_label (normalize_digits (["born 12/04/1999".data].getD 0 [])),
          "12/04/1999".data⟩ : DateCandidate) ∈
          _collect_date_candidates exToday ["born 12/04/1999".data] :=
  ⟨by decide, by decide, by decide,
    (C8_date_collection exToday ["born 12/04/1999".data]).2.1 0 (by decide)
      ("12".data, "04".data, "1999".data, "12/04/1999".data) (by decide)
      ⟨1999, 4, 12⟩ (by decide)⟩

/-! ### Character provenance lemmas (C9) -/

theorem foldl_preserve {α β : Type} (P : β → Prop) (f : β → α → β)
    (l : List α) (hf : ∀ b, ∀ a ∈ l, P b → P (f b a)) :
    ∀ b, P b → P (l.foldl f b) := by
  induction l with
  | nil => intro b hb; exact hb
  | cons a t ih =>
    intro b hb
    rw [List.foldl_cons]
    exact ih (fun b' a' ha' hb' => hf b' a' (List.mem_cons_of_mem a ha') hb')
      (f b a) (hf b a (List.mem_cons_self a t) hb)

theorem char_ofNat_toNat_digit {n : Nat} (h : n ≤ 9) :
    (Char.ofNat (48 + n)).toNat = 48 + n := by
  interval_cases n <;> decide

theorem arabicToAscii_not_arabic (c : Char) :
    ¬(0x660 ≤ (arabicToAscii c).toNat ∧ (arabicToAscii c).toNat ≤ 0x669) := by
  unfold arabicToAscii
  by_cases h : (0x660 ≤ c.toNat && c.toNat ≤ 0x669) = true
  · rw [if_pos h]
    simp only [Bool.and_eq_true, decide_eq_true_eq] at h
    rw [char_ofNat_toNat_digit (by omega)]
    omega
  · rw [if_neg h]
    intro hcontra
    exact h (by simp [hcontra.1, hcontra.2])

theorem recoverChar_not_arabic {c : Char}
    (h : ¬(0x660 ≤ c.toNat ∧ c.toNat ≤ 0x669)) :
    ¬(0x660 ≤ (recoverChar c).toNat ∧ (recoverChar c).toNat ≤ 0x669) := by
  unfold recoverChar
  split
  · decide
  · split
    · decide
    · split
      · decide
      · exact h

theorem isDigit_of_isPyDigit_not_arabic {c : Char} (hp : isPyDigit c = true)
    (h : ¬(0x660 ≤ c.toNat ∧ c.toNat ≤ 0x669)) : c.isDigit = true := by
  unfold isPyDigit at hp
  simp only [Bool.or_eq_true, Bool.and_eq_true, decide_eq_true_eq] at hp
  rcases hp with h1 | h1
  · exact h1
  · exact absurd h1 h

theorem mem_norm_rec_isDigit {line : Str} {c : Char}
    (hmem : c ∈ _normalize_for_digit_recovery (normalize_digits line))
    (hp : isPyDigit c = true) : c.isDigit = true := by
  unfold _normalize_for_digit_recovery normalize_digits at hmem
  rw [List.map_map] at hmem
  obtain ⟨c0, _, hc0⟩ := List.mem_map.mp hmem
  refine isDigit_of_isPyDigit_not_arabic hp ?_
  rw [← hc0]
  exact recoverChar_not_arabic (arabicToAscii_not_arabic c0)

theorem digitRunsAux_chars : ∀ (s acc : Str), ∀ r ∈ digitRunsAux s acc,
    ∀ c ∈ r, c ∈ acc ∨ c ∈ s := by
  intro s
  induction s with
  | nil =>
    intro acc r hr c hc
    unfold digitRunsAux at hr
    split at hr
    · cases hr
    · rcases List.mem_singleton.mp hr with rfl
      exact Or.inl hc
  | cons d t ih =>
    intro acc r hr c hc
    unfold digitRunsAux at hr
    split at hr
    · rcases ih (acc ++ [d]) r hr c hc with h | h
      · rcases List.mem_append.mp h with h2 | h2
        · exact Or.inl h2
        · exact Or.inr (List.mem_cons.mpr (Or.inl (List.mem_singleton.mp h2)))
      · exact Or.inr (List.mem_cons_of_mem d h)
    · split at hr
      · rcases ih [] r hr c hc with h | h
        · cases h
        · exact Or.inr (List.mem_cons_of_mem d h)
      · rcases List.mem_cons.mp hr with rfl | h2
        · exact Or.inl hc
        · rcases ih [] r h2 c hc with h | h
          · cases h
          · exact Or.inr (List.mem_cons_of_mem d h)

theorem digitRunsAux_digits : ∀ (s acc : Str),
    (∀ c ∈ acc, isPyDigit c = true) → ∀ r ∈ digitRunsAux s acc,
    ∀ c ∈ r, isPyDigit c = true := by
  intro s
  induction s with
  | nil =>
    intro acc hacc r hr c hc
    unfold digitRunsAux at hr
    split at hr
    · cases hr
    · rcases List.mem_singleton.mp hr with rfl
      exact hacc c hc
  | cons d t ih =>
    intro acc hacc r hr c hc
    unfold digitRunsAux at hr
    split at hr
    · rename_i hd
      refine ih (acc ++ [d]) ?_ r hr c hc
      intro c' hc'
      rcases List.mem_append.mp hc' with h2 | h2
      · exact hacc c' h2
      · rw [List.mem_singleton.mp h2]; exact hd
    · split at hr
      · exact ih [] (by simp) r hr c hc
      · rcases List.mem_cons.mp hr with rfl | h2
        · exact hacc c hc
        · exact ih [] (by simp) r h2 c hc

theorem getD_mem_of_lt {l : List Str} {n : Nat} (h : n < l.length) :
    l.getD n [] ∈ l := by
  rw [List.getD_eq_getElem l [] h]
  exact List.getElem_mem h

theorem collect_line_cand_ascii {line : Str} {cw : Str × Bool}
    (h : cw ∈ _collect_line_candidates line) :
    ∀ c ∈ cw.1, c.isDigit = true := by
  intro c hc
  have hrun : ∀ r ∈ digitRuns (_normalize_for_digit_recovery
      (normalize_digits line)), ∀ c' ∈ r, c'.isDigit = true := by
    intro r hr c' hc'
    have hmem : c' ∈ _normalize_for_digit_recovery (normalize_digits line) := by
      rcases digitRunsAux_chars _ [] r hr c' hc' with h2 | h2
      · cases h2
      · exact h2
    exact mem_norm_rec_isDigit hmem
      (digitRunsAux_digits _ [] (by simp) r hr c' hc')
  unfold _collect_line_candidates at h
  rcases List.mem_append.mp h with h1 | h1
  · obtain ⟨r, hr, hmap⟩ := List.mem_map.mp h1
    have hr' := List.mem_of_mem_filter hr
    cases hmap
    exact hrun r hr' c hc
  · obtain ⟨seq, hseq, hcw⟩ := List.mem_flatMap.mp h1
    by_cases hlen : seq.length < 12
    · rw [if_pos hlen] at hcw; cases hcw
    · rw [if_neg hlen] at hcw
      by_cases h12 : (seq.length == 12) = true
      · rw [if_pos h12] at hcw
        rcases List.mem_singleton.mp hcw with rfl
        exact hrun seq hseq c hc
      · rw [if_neg h12] at hcw
        obtain ⟨w, _, hw⟩ := List.mem_map.mp hcw
        cases hw
        obtain ⟨i, _, hwin⟩ := List.mem_map.mp (by assumption :
          w ∈ windows12 seq)
        rw [← hwin] at hc
        exact hrun seq hseq c
          (List.mem_of_mem_drop (List.mem_of_mem_take hc))

theorem crossChunks_fold_ascii {lines : List Str}
    (hclean : ∀ l ∈ lines, ∀ c ∈ l, ¬(0x660 ≤ c.toNat ∧ c.toNat ≤ 0x669)) :
    ∀ (js : List Nat), (∀ j ∈ js, j < lines.length) →
    ∀ st : Bool × List Str × Str,
      ((∀ ch ∈ st.2.1, ∀ c ∈ ch, c.isDigit = true) ∧
        (∀ c ∈ st.2.2, c.isDigit = true)) →
      ((∀ ch ∈ (js.foldl
          (fun (st : Bool × List Str × Str) j =>
            if st.1 then st
            else
              let segment :=
                (_normalize_for_digit_recovery (lines.getD j [])).filter isPyDigit
              if segment.isEmpty then (true, st.2.1, st.2.2)
              else (false, st.2.1 ++ [st.2.2 ++ segment], st.2.2 ++ segment))
          st).2.1, ∀ c ∈ ch, c.isDigit = true) ∧
        (∀ c ∈ (js.foldl
          (fun (st : Bool × List Str × Str) j =>
            if st.1 then st
            else
              let segment :=
                (_normalize_for_digit_recovery (lines.getD j [])).filter isPyDigit
              if segment.isEmpty then (true, st.2.1, st.2.2)
              else (false, st.2.1 ++ [st.2.2 ++ segment], st.2.2 ++ segment))
          st).2.2, c.isDigit = true)) := by
  intro js
  induction js with
  | nil => intro _ st hst; exact hst
  | cons j t ih =>
    intro hjs st hst
    rw [List.foldl_cons]
    refine ih (fun j' hj' => hjs j' (List.mem_cons_of_mem j hj')) _ ?_
    by_cases hb : (st.1 : Bool) = true
    · rw [if_pos hb]; exact hst
    · rw [if_neg hb]
      have hseg : ∀ c ∈ (_normalize_for_digit_recovery
          (lines.getD j [])).filter isPyDigit, c.isDigit = true := by
        intro c hc
        have hp : isPyDigit c = true := List.of_mem_filter hc
        obtain ⟨c0, hc0, rfl⟩ := List.mem_map.mp (List.mem_of_mem_filter hc)
        exact isDigit_of_isPyDigit_not_arabic hp (recoverChar_not_arabic
          (hclean _ (getD_mem_of_lt (hjs j (List.mem_cons_self j t))) c0 hc0))
      by_cases he : ((_normalize_for_digit_recovery
          (lines.getD j [])).filter isPyDigit).isEmpty = true
      · rw [if_pos he]; exact hst
      · rw [if_neg he]
        refine ⟨?_, ?_⟩
        · intro ch hch c hc
          rcases List.mem_append.mp hch with h1 | h1
          · exact hst.1 ch h1 c hc
          · rcases List.mem_singleton.mp h1 with rfl
            rcases List.mem_append.mp hc with h2 | h2
            · exact hst.2 c h2
            · exact hseg c h2
        · intro c hc
          rcases List.mem_append.mp hc with h2 | h2
          · exact hst.2 c h2
          · exact hseg c h2

theorem crossChunks_ascii {lines : List Str} {i : Nat}
    (hclean : ∀ l ∈ lines, ∀ c ∈ l, ¬(0x660 ≤ c.toNat ∧ c.toNat ≤ 0x669)) :
    ∀ chunk ∈ crossChunks lines i, ∀ c ∈ chunk, c.isDigit = true := by
  intro chunk hchunk c hc
  unfold crossChunks at hchunk
  have hjs : ∀ j ∈ List.range' i (min (i + 4) lines.length - i),
      j < lines.length := by
    intro j hj
    obtain ⟨k, hk, rfl⟩ := List.mem_range'.mp hj
    omega
  exact (crossChunks_fold_ascii hclean _ hjs (false, [], [])
    (by simp)).1 chunk hchunk c hc

theorem sbSet_mem {sb : Scoreboard} {k : Str} {v : ℚ} :
    ∀ p ∈ sbSet sb k v, p = (k, v) ∨ p ∈ sb := by
  intro p hp
  unfold sbSet at hp
  split at hp
  · obtain ⟨q, hq, hmap⟩ := List.mem_map.mp hp
    by_cases h : (q.1 == k) = true
    · rw [if_pos h] at hmap; exact Or.inl hmap.symm
    · rw [if_neg h] at hmap; exact Or.inr (hmap ▸ hq)
  · rcases List.mem_append.mp hp with h | h
    · exact Or.inr h
    · exact Or.inl (List.mem_singleton.mp h)

theorem push_preserve (P : Str → Prop) {today : Date} {sb : Scoreboard}
    {cand line : Str} {lc fw : Bool}
    (hsb : ∀ p ∈ sb, P p.1)
    (hcand : digitsN 12 cand = true → P cand) :
    ∀ p ∈ _push_candidate today sb cand line lc fw, P p.1 := by
  intro p hp
  unfold _push_candidate at hp
  by_cases h12 : digitsN 12 cand = true
  · rw [if_pos h12] at hp
    cases hg : sbGet sb cand with
    | none =>
      rw [hg] at hp
      simp only [] at hp
      rcases sbSet_mem p hp with rfl | h
      · exact hcand h12
      · exact hsb p h
    | some cur =>
      rw [hg] at hp
      simp only [] at hp
      split at hp
      · rcases sbSet_mem p hp with rfl | h
        · exact hcand h12
        · exact hsb p h
      · exact hsb p hp
  · rw [if_neg h12] at hp
    exact hsb p hp

theorem push_bonus_preserve (P : Str → Prop) {today : Date} {sb : Scoreboard}
    {cand line : Str} {lc fw : Bool} {bonus : ℚ}
    (hsb : ∀ p ∈ sb, P p.1)
    (hcand : digitsN 12 cand = true → P cand) :
    ∀ p ∈ _push_candidate_with_bonus today sb cand line lc fw bonus, P p.1 := by
  intro p hp
  unfold _push_candidate_with_bonus at hp
  by_cases h12 : digitsN 12 cand = true
  · rw [if_pos h12] at hp
    cases hg : sbGet sb cand with
    | none =>
      rw [hg] at hp
      simp only [] at hp
      rcases sbSet_mem p hp with rfl | h
      · exact hcand h12
      · exact hsb p h
    | some cur =>
      rw [hg] at hp
      simp only [] at hp
      split at hp
      · rcases sbSet_mem p hp with rfl | h
        · exact hcand h12
        · exact hsb p h
      · exact hsb p hp
  · rw [if_neg h12] at hp
    exact hsb p hp

theorem foldl_preserve_keys {α : Type} (f : Scoreboard → α → Scoreboard)
    (l : List α)
    (hf : ∀ sb : Scoreboard, ∀ a ∈ l,
      (∀ p ∈ sb, p.1.length = 12 ∧ p.1.all Char.isDigit = true) →
      ∀ p ∈ f sb a, p.1.length = 12 ∧ p.1.all Char.isDigit = true) :
    ∀ sb : Scoreboard,
      (∀ p ∈ sb, p.1.length = 12 ∧ p.1.all Char.isDigit = true) →
      ∀ p ∈ l.foldl f sb, p.1.length = 12 ∧ p.1.all Char.isDigit = true :=
  foldl_preserve
    (fun (sb : Scoreboard) =>
      ∀ p ∈ sb, p.1.length = 12 ∧ p.1.all Char.isDigit = true) f l hf

theorem labeledScoreboard_keys (today : Date) (lines : List Str) :
    ∀ p ∈ labeledScoreboard today lines,
      p.1.length = 12 ∧ p.1.all Char.isDigit = true := by
  unfold labeledScoreboard
  refine foldl_preserve_keys _ _ ?_ [] (by simp)
  intro sb idx _ hsb
  by_cases hl : (!_has_civil_label (lines.getD idx [])) = true
  · rw [if_pos hl]; exact hsb
  · rw [if_neg hl]
    refine foldl_preserve_keys _ _ ?_ sb hsb
    intro sb' j _ hsb'
    refine foldl_preserve_keys _ _ ?_ _ (foldl_preserve_keys _ _ ?_ sb' hsb')
    · intro sb'' seq hseq hsb''
      refine push_bonus_preserve (fun s => s.length = 12 ∧ s.all Char.isDigit = true) hsb'' ?_
      intro h12
      refine ⟨digitsN_length h12, ?_⟩
      rw [List.all_eq_true]
      intro c hc
      have hseq' := List.mem_of_mem_filter hseq
      have hc' : c ∈ seq := List.mem_of_mem_drop hc
      have hmem : c ∈ _normalize_for_digit_recovery
          (normalize_digits (lines.getD j [])) := by
        rcases digitRunsAux_chars _ [] seq hseq' c hc' with h | h
        · cases h
        · exact h
      exact mem_norm_rec_isDigit hmem
        (digitRunsAux_digits _ [] (by simp) seq hseq' c hc')
    · intro sb'' cw hcw hsb''
      refine push_bonus_preserve (fun s => s.length = 12 ∧ s.all Char.isDigit = true) hsb'' ?_
      intro h12
      refine ⟨digitsN_length h12, ?_⟩
      rw [List.all_eq_true]
      intro c hc
      exact collect_line_cand_ascii hcw c hc

theorem unlabeledScoreboard_keys (today : Date) (lines : List Str)
    (hclean : ∀ l ∈ lines, ∀ c ∈ l, ¬(0x660 ≤ c.toNat ∧ c.toNat ≤ 0x669)) :
    ∀ p ∈ unlabeledScoreboard today lines,
      p.1.length = 12 ∧ p.1.all Char.isDigit = true := by
  unfold unlabeledScoreboard
  refine foldl_preserve_keys _ _ ?_ _ (foldl_preserve_keys _ _ ?_ [] (by simp))
  · intro sb i _ hsb
    refine foldl_preserve_keys _ _ ?_ sb hsb
    intro sb' chunk hchunk hsb'
    refine foldl_preserve_keys _ _ ?_ sb' hsb'
    intro sb'' k _ hsb''
    refine push_preserve (fun s => s.length = 12 ∧ s.all Char.isDigit = true) hsb'' ?_
    intro h12
    refine ⟨digitsN_length h12, ?_⟩
    rw [List.all_eq_true]
    intro c hc
    exact crossChunks_ascii hclean chunk hchunk c
      (List.mem_of_mem_drop (List.mem_of_mem_take hc))
  · intro sb idx _ hsb
    have hcol : ∀ p ∈ (_collect_line_candidates (lines.getD idx [])).foldl
        (fun sb cw =>
          _push_candidate today sb cw.1 (lines.getD idx []) false cw.2) sb,
        p.1.length = 12 ∧ p.1.all Char.isDigit = true := by
      refine foldl_preserve_keys _ _ ?_ sb hsb
      intro sb'' cw hcw hsb''
      refine push_preserve (fun s => s.length = 12 ∧ s.all Char.isDigit = true) hsb'' ?_
      intro h12
      refine ⟨digitsN_length h12, ?_⟩
      rw [List.all_eq_true]
      intro c hc
      exact collect_line_cand_ascii hcw c hc
    cases hlab : _has_civil_label (lines.getD idx []) with
    | true =>
      simp only [hlab, reduceIte]
      refine foldl_preserve_keys _ _ ?_ _ hcol
      intro sb' j _ hsb'
      refine foldl_preserve_keys _ _ ?_ sb' hsb'
      intro sb'' cw hcw hsb''
      refine push_preserve (fun s => s.length = 12 ∧ s.all Char.isDigit = true) hsb'' ?_
      intro h12
      refine ⟨digitsN_length h12, ?_⟩
      rw [List.all_eq_true]
      intro c hc
      exact collect_line_cand_ascii hcw c hc
    | false =>
      simp only [hlab, Bool.false_eq_true, reduceIte]
      exact hcol

theorem pick_civil_id_ascii {today : Date} {lines : List Str} {s : Str}
    (hclean : ∀ l ∈ lines, ∀ c ∈ l, ¬(0x660 ≤ c.toNat ∧ c.toNat ≤ 0x669))
    (h : _pick_civil_id today lines = some s) :
    s.length = 12 ∧ s.all Char.isDigit = true := by
  unfold _pick_civil_id at h
  split at h
  · cases h
  · by_cases hl : (!(labeledScoreboard today lines).isEmpty) = true
    · rw [if_pos hl] at h
      have hne : labeledScoreboard today lines ≠ [] := by
        simpa [List.isEmpty_iff] using hl
      obtain ⟨b, hb, hmem, _⟩ := sbBest_is_max hne
      rw [hb] at h
      have hs : s = b.1 := by simpa using h.symm
      rw [hs]
      exact labeledScoreboard_keys today lines b hmem
    · rw [if_neg hl] at h
      by_cases hune : (unlabeledScoreboard today lines).isEmpty = true
      · simp only [hune, if_true] at h
        cases h
      · simp only [hune, if_false, Bool.false_eq_true] at h
        have hne : unlabeledScoreboard today lines ≠ [] := by
          simpa [List.isEmpty_iff] using hune
        obtain ⟨b, hb, hmem, _⟩ := sbBest_is_max hne
        rw [hb] at h
        have hs : s = b.1 := by simpa using h.symm
        rw [hs]
        exact unlabeledScoreboard_keys today lines hclean b hmem

/-! ### Date goodness lemmas (C9) -/

theorem head?_mem_self {α : Type} {l : List α} {a : α} (h : l.head? = some a) :
    a ∈ l := by
  cases l with
  | nil => cases h
  | cons b t =>
    have hb : b = a := by simpa using h
    rw [← hb]
    exact List.mem_cons_self b t

theorem foldl_choice_mem {α : Type} (f : α → α → α)
    (hf : ∀ a b, f a b = a ∨ f a b = b) :
    ∀ (l : List α) (a : α), l.foldl f a = a ∨ l.foldl f a ∈ l := by
  intro l
  induction l with
  | nil => intro a; exact Or.inl rfl
  | cons b t ih =>
    intro a
    rw [List.foldl_cons]
    rcases ih (f a b) with h | h
    · rcases hf a b with h2 | h2
      · exact Or.inl (h.trans h2)
      · exact Or.inr (by rw [h, h2]; exact List.mem_cons_self b t)
    · exact Or.inr (List.mem_cons_of_mem b h)

theorem maxFoldChoice : ∀ (a b : DateCandidate),
    (if Date.ltb a.value b.value ||
        (a.value == b.value && a.line_index < b.line_index) then b else a)
        = a ∨
    (if Date.ltb a.value b.value ||
        (a.value == b.value && a.line_index < b.line_index) then b else a)
        = b := by
  intro a b
  split
  · exact Or.inr rfl
  · exact Or.inl rfl

theorem dateFoldChoice : ∀ (a b : Date),
    (if Date.ltb a b then b else a) = a ∨
      (if Date.ltb a b then b else a) = b := by
  intro a b
  split
  · exact Or.inr rfl
  · exact Or.inl rfl

theorem maxByValueLine_mem {pool : List DateCandidate} {c : DateCandidate}
    (h : maxByValueLine pool = some c) : c ∈ pool := by
  cases pool with
  | nil => cases h
  | cons p t =>
    unfold maxByValueLine at h
    rw [Option.some_inj] at h
    rcases foldl_choice_mem _ maxFoldChoice t p with h2 | h2
    · rw [← h, h2]
      exact List.mem_cons_self p t
    · rw [← h]
      exact List.mem_cons_of_mem p h2

theorem maxDateValue_mem {ds : List Date} {d : Date}
    (h : maxDateValue ds = some d) : d ∈ ds := by
  cases ds with
  | nil => cases h
  | cons p t =>
    unfold maxDateValue at h
    rw [Option.some_inj] at h
    rcases foldl_choice_mem _ dateFoldChoice t p with h2 | h2
    · rw [← h, h2]
      exact List.mem_cons_self p t
    · rw [← h]
      exact List.mem_cons_of_mem p h2

theorem civil_core_good {year mm dd : Nat} {today dt : Date}
    (h : (match mkDate year mm dd with
          | none => none
          | some parsed =>
            if Date.ltb today parsed then none else some parsed) = some dt) :
    Date.valid dt = true ∧ dt.year = year := by
  cases hmk : mkDate year mm dd with
  | none => rw [hmk] at h; cases h
  | some parsed =>
    rw [hmk] at h
    simp only [] at h
    obtain ⟨hp, hv⟩ := mkDate_some hmk
    by_cases hfut : Date.ltb today parsed = true
    · rw [if_pos hfut] at h; cases h
    · rw [if_neg hfut] at h
      rw [Option.some_inj] at h
      subst h
      subst hp
      exact ⟨hv, rfl⟩

theorem civil_year_good {mm dd : Nat} {yopt : Option Nat} {today dt : Date}
    (h : (match yopt with
          | none => none
          | some year =>
            match mkDate year mm dd with
            | none => none
            | some parsed =>
              if Date.ltb today parsed then none else some parsed)
        = some dt)
    (hy : ∀ y, yopt = some y → 1900 ≤ y) :
    Date.valid dt = true ∧ 1900 ≤ dt.year := by
  cases yo : yopt with
  | none => rw [yo] at h; cases h
  | some year =>
    rw [yo] at h
    simp only [] at h
    obtain ⟨hv, hyr⟩ := civil_core_good h
    refine ⟨hv, ?_⟩
    rw [hyr]
    exact hy year yo

theorem civil_id_to_dob_good {today : Date} {cid : Str} {dt : Date}
    (h : _civil_id_to_dob today cid = some dt) :
    Date.valid dt = true ∧ 1900 ≤ dt.year := by
  unfold _civil_id_to_dob at h
  by_cases hd : digitsN 12 cid = true
  · rw [if_pos hd] at h
    refine civil_year_good h ?_
    intro y hy
    split at hy
    · have h2 := Option.some_inj.mp hy
      omega
    · split at hy
      · have h2 := Option.some_inj.mp hy
        omega
      · cases hy
  · rw [if_neg hd] at h; cases h

theorem parse_yymmdd_good {today : Date} {tok : Str} {af : Bool} {dt : Date}
    (h : _parse_yymmdd today tok af = some dt) :
    Date.valid dt = true ∧ 1900 ≤ dt.year := by
  unfold _parse_yymmdd at h
  by_cases hd : digitsN 6 tok = true
  · rw [if_pos hd] at h
    obtain ⟨hdt, hv, h1, _⟩ := parse_core_spec (h := h)
    subst hdt
    exact ⟨hv, h1⟩
  · rw [if_neg hd] at h; cases h

theorem dobStep1_good {today : Date} {cands : List DateCandidate}
    {cid : Option Str} {d : Date}
    (h : (dobStep1 today cands cid).1 = some d) :
    Date.valid d = true ∧ 1900 ≤ d.year := by
  unfold dobStep1 at h
  by_cases ho : optTruthy cid = true
  · rw [if_pos ho] at h
    cases hciv : _civil_id_to_dob today (cid.getD []) with
    | none =>
      rw [hciv] at h
      simp only [] at h
      cases h
    | some cdob =>
      rw [hciv] at h
      simp only [] at h
      rw [Option.some_inj] at h
      subst h
      exact civil_id_to_dob_good hciv
  · rw [if_neg ho] at h
    simp only [] at h
    cases h

theorem dobStage_good (today : Date) (cands : List DateCandidate)
    (cid : Option Str)
    (hc : ∀ c ∈ cands, Date.valid c.value = true ∧ 1900 ≤ c.value.year) :
    ∀ d, (dobStage today cands cid).1 = some d →
      Date.valid d = true ∧ 1900 ≤ d.year := by
  intro d h
  unfold dobStage at h
  cases hs : (dobStep1 today cands cid).1 with
  | some d0 =>
    rw [hs] at h
    simp only [] at h
    rw [Option.some_inj] at h
    subst h
    exact dobStep1_good hs
  | none =>
    rw [hs] at h
    simp only [] at h
    cases h1 : (cands.filter
        (fun c => c.direct_dob_label && _dob_plausible today c.value)).head? with
    | some c =>
      rw [h1] at h
      simp only [] at h
      rw [Option.some_inj] at h
      subst h
      exact hc c (List.mem_of_mem_filter (head?_mem_self h1))
    | none =>
      rw [h1] at h
      simp only [] at h
      cases h2 : (cands.filter
          (fun c => c.has_dob_label && _dob_plausible today c.value)).head? with
      | some c =>
        rw [h2] at h
        simp only [] at h
        rw [Option.some_inj] at h
        subst h
        exact hc c (List.mem_of_mem_filter (head?_mem_self h2))
      | none =>
        rw [h2] at h
        simp only [] at h
        cases h3 : (cands.filter
            (fun c => _dob_plausible today c.value)).head? with
        | some c =>
          rw [h3] at h
          simp only [] at h
          rw [Option.some_inj] at h
          subst h
          exact hc c (List.mem_of_mem_filter (head?_mem_self h3))
        | none =>
          rw [h3] at h
          simp only [] at h
          cases h

theorem pickExpiry_good (dob : Option Date) (pool : List DateCandidate)
    (hp : ∀ c ∈ pool, Date.valid c.value = true ∧ 1900 ≤ c.value.year) :
    ∀ e, pickExpiry dob pool = some e →
      Date.valid e = true ∧ 1900 ≤ e.year := by
  intro e h
  unfold pickExpiry at h
  by_cases he : pool.isEmpty = true
  · rw [if_pos he] at h; cases h
  · rw [if_neg he] at h
    cases dob with
    | some dd =>
      simp only [] at h
      cases hm1 : maxByValueLine
          (pool.filter (fun c => Date.ltb dd c.value)) with
      | some c =>
        rw [hm1] at h
        simp only [] at h
        rw [Option.some_inj] at h
        subst h
        exact hp c (List.mem_of_mem_filter (maxByValueLine_mem hm1))
      | none =>
        rw [hm1] at h
        simp only [] at h
        cases hm2 : maxByValueLine
            (pool.filter (fun c => c.value != dd)) with
        | some c =>
          rw [hm2] at h
          simp only [] at h
          rw [Option.some_inj] at h
          subst h
          exact hp c (List.mem_of_mem_filter (maxByValueLine_mem hm2))
        | none =>
          rw [hm2] at h
          simp only [] at h
          obtain ⟨c, hmc, hval⟩ := Option.map_eq_some'.mp h
          subst hval
          exact hp c (maxByValueLine_mem hmc)
    | none =>
      simp only [] at h
      obtain ⟨c, hmc, hval⟩ := Option.map_eq_some'.mp h
      subst hval
      exact hp c (maxByValueLine_mem hmc)

theorem expiryStage1_good (cands : List DateCandidate) (dob : Option Date)
    (hc : ∀ c ∈ cands, Date.valid c.value = true ∧ 1900 ≤ c.value.year) :
    ∀ e, expiryStage1 cands dob = some e →
      Date.valid e = true ∧ 1900 ≤ e.year := by
  intro e h
  unfold expiryStage1 at h
  exact pickExpiry_good dob _
    (fun c hcm => hc c (List.mem_of_mem_filter hcm)) e h

theorem expiryStage2_good (cands : List DateCandidate) (dob : Option Date)
    (hc : ∀ c ∈ cands, Date.valid c.value = true ∧ 1900 ≤ c.value.year) :
    ∀ e, expiryStage2 cands dob = some e →
      Date.valid e = true ∧ 1900 ≤ e.year := by
  intro e h
  unfold expiryStage2 at h
  cases h1 : expiryStage1 cands dob with
  | some e1 =>
    rw [h1] at h
    simp only [] at h
    rw [Option.some_inj] at h
    subst h
    exact expiryStage1_good cands dob hc e1 h1
  | none =>
    rw [h1] at h
    simp only [] at h
    exact pickExpiry_good dob _
      (fun c hcm => hc c (List.mem_of_mem_filter hcm)) e h

theorem expiryStage3_good (cands : List DateCandidate) (dob : Option Date)
    (dli : Option Nat)
    (hc : ∀ c ∈ cands, Date.valid c.value = true ∧ 1900 ≤ c.value.year) :
    ∀ e, expiryStage3 cands dob dli = some e →
      Date.valid e = true ∧ 1900 ≤ e.year := by
  intro e h
  unfold expiryStage3 at h
  cases h2 : expiryStage2 cands dob with
  | some e2 =>
    rw [h2] at h
    simp only [] at h
    rw [Option.some_inj] at h
    subst h
    exact expiryStage2_good cands dob hc e2 h2
  | none =>
    rw [h2] at h
    cases dob with
    | some dd =>
      simp only [] at h
      exact pickExpiry_good (some dd) _
        (fun c hcm => hc c (List.mem_of_mem_filter hcm)) e h
    | none =>
      simp only [] at h
      cases h

theorem expiryStage4_good (cands : List DateCandidate) (dob : Option Date)
    (dli : Option Nat)
    (hc : ∀ c ∈ cands, Date.valid c.value = true ∧ 1900 ≤ c.value.year) :
    ∀ e, expiryStage4 cands dob dli = some e →
      Date.valid e = true ∧ 1900 ≤ e.year := by
  intro e h
  unfold expiryStage4 at h
  cases h3 : expiryStage3 cands dob dli with
  | some e3 =>
    rw [h3] at h
    simp only [] at h
    rw [Option.some_inj] at h
    subst h
    exact expiryStage3_good cands dob dli hc e3 h3
  | none =>
    rw [h3] at h
    cases dob with
    | some dd =>
      simp only [] at h
      exact pickExpiry_good (some dd) _
        (fun c hcm => hc c (List.mem_of_mem_filter hcm)) e h
    | none =>
      simp only [] at h
      cases h

theorem expiryStage5_good (cands : List DateCandidate) (dob : Option Date)
    (dli : Option Nat)
    (hc : ∀ c ∈ cands, Date.valid c.value = true ∧ 1900 ≤ c.value.year) :
    ∀ e, expiryStage5 cands dob dli = some e →
      Date.valid e = true ∧ 1900 ≤ e.year := by
  intro e h
  unfold expiryStage5 at h
  cases h4 : expiryStage4 cands dob dli with
  | some e4 =>
    rw [h4] at h
    simp only [] at h
    rw [Option.some_inj] at h
    subst h
    exact expiryStage4_good cands dob dli hc e4 h4
  | none =>
    rw [h4] at h
    simp only [] at h
    by_cases hemp : cands.isEmpty = true
    · rw [if_pos hemp] at h; cases h
    · rw [if_neg hemp] at h
      obtain ⟨c, hcm, hval⟩ := List.mem_map.mp (maxDateValue_mem h)
      subst hval
      exact hc c hcm

theorem mrzInner_good {today : Date} {pr : Str × Str}
    {st : Option Date × Option Nat × Option Date}
    (h1 : ∀ d, st.1 = some d → Date.valid d = true ∧ 1900 ≤ d.year)
    (h2 : ∀ e, st.2.2 = some e → Date.valid e = true ∧ 1900 ≤ e.year) :
    (∀ d, (mrzInner today st pr).1 = some d →
        Date.valid d = true ∧ 1900 ≤ d.year) ∧
    (∀ e, (mrzInner today st pr).2.2 = some e →
        Date.valid e = true ∧ 1900 ≤ e.year) := by
  obtain ⟨s1, s2, s3⟩ := st
  cases s3 with
  | some e0 => exact ⟨h1, h2⟩
  | none =>
    cases s1 with
    | some d1 =>
      cases hB : _parse_yymmdd today pr.2 true with
      | some e1 =>
        by_cases hlt : Date.ltb d1 e1 = true
        · simp only [mrzInner, hB, hlt, reduceIte]
          exact ⟨fun d hd => Option.some_inj.mp hd ▸ h1 d1 rfl,
            fun e he => Option.some_inj.mp he ▸ parse_yymmdd_good hB⟩
        · simp only [mrzInner, hB, Bool.not_eq_true] at hlt ⊢
          simp only [hlt, reduceIte]
          exact ⟨fun d hd => Option.some_inj.mp hd ▸ h1 d1 rfl,
            fun e he => nomatch he⟩
      | none =>
        simp only [mrzInner, hB]
        exact ⟨fun d hd => Option.some_inj.mp hd ▸ h1 d1 rfl,
          fun e he => nomatch he⟩
    | none =>
      cases hA : _parse_yymmdd today pr.1 false with
      | some d0 =>
        by_cases hpl : _dob_plausible today d0 = true
        · cases hB : _parse_yymmdd today pr.2 true with
          | some e1 =>
            by_cases hlt : Date.ltb d0 e1 = true
            · simp only [mrzInner, hA, hB, hpl, hlt, reduceIte]
              exact ⟨fun d hd => Option.some_inj.mp hd ▸ parse_yymmdd_good hA,
                fun e he => Option.some_inj.mp he ▸ parse_yymmdd_good hB⟩
            · simp only [mrzInner, hA, hB, hpl, reduceIte,
                Bool.not_eq_true] at hlt ⊢
              simp only [hlt, reduceIte]
              exact ⟨fun d hd => Option.some_inj.mp hd ▸ parse_yymmdd_good hA,
                fun e he => nomatch he⟩
          | none =>
            simp only [mrzInner, hA, hB, hpl, reduceIte]
            exact ⟨fun d hd => Option.some_inj.mp hd ▸ parse_yymmdd_good hA,
              fun e he => nomatch he⟩
        · simp only [Bool.not_eq_true] at hpl
          cases hB : _parse_yymmdd today pr.2 true with
          | some e1 =>
            simp only [mrzInner, hA, hB, hpl, reduceIte]
            exact ⟨(fun d hd => nomatch hd),
              fun e he => Option.some_inj.mp he ▸ parse_yymmdd_good hB⟩
          | none =>
            simp only [mrzInner, hA, hB, hpl, reduceIte]
            exact ⟨(fun d hd => nomatch hd), fun e he => nomatch he⟩
      | none =>
        cases hB : _parse_yymmdd today pr.2 true with
        | some e1 =>
          simp only [mrzInner, hA, hB, reduceIte]
          exact ⟨(fun d hd => nomatch hd),
            fun e he => Option.some_inj.mp he ▸ parse_yymmdd_good hB⟩
        | none =>
          simp only [mrzInner, hA, hB]
          exact ⟨(fun d hd => nomatch hd), fun e he => nomatch he⟩

theorem mrzOuter_good {today : Date} {raw : Str}
    {st : Option Date × Option Nat × Option Date}
    (h1 : ∀ d, st.1 = some d → Date.valid d = true ∧ 1900 ≤ d.year)
    (h2 : ∀ e, st.2.2 = some e → Date.valid e = true ∧ 1900 ≤ e.year) :
    (∀ d, (mrzOuter today st raw).1 = some d →
        Date.valid d = true ∧ 1900 ≤ d.year) ∧
    (∀ e, (mrzOuter today st raw).2.2 = some e →
        Date.valid e = true ∧ 1900 ≤ e.year) := by
  obtain ⟨s1, s2, s3⟩ := st
  cases s3 with
  | some e0 => exact ⟨h1, h2⟩
  | none =>
    exact foldl_preserve
      (fun (q : Option Date × Option Nat × Option Date) =>
        (∀ d, q.1 = some d → Date.valid d = true ∧ 1900 ≤ d.year) ∧
        (∀ e, q.2.2 = some e → Date.valid e = true ∧ 1900 ≤ e.year))
      (fun (q : Option Date × Option Nat × Option Date) (pr : Str × Str) =>
        mrzInner today q pr)
      (mrzPairs (asciiUpper (_normalize_for_digit_recovery
        (normalize_digits raw))))
      (fun b a _ hb => mrzInner_good hb.1 hb.2)
      (s1, s2, none) ⟨h1, h2⟩

theorem mrzStage_good (today : Date) (lines : List Str) (dob : Option Date)
    (dli : Option Nat) (e5 : Option Date)
    (hdob : ∀ d, dob = some d → Date.valid d = true ∧ 1900 ≤ d.year)
    (he5 : ∀ e, e5 = some e → Date.valid e = true ∧ 1900 ≤ e.year) :
    (∀ d, (mrzStage today lines dob dli e5).1 = some d →
        Date.valid d = true ∧ 1900 ≤ d.year) ∧
    (∀ e, (mrzStage today lines dob dli e5).2.2 = some e →
        Date.valid e = true ∧ 1900 ≤ e.year) := by
  cases e5 with
  | some e0 =>
    constructor
    · intro d hd
      exact hdob d hd
    · intro e he
      exact he5 e he
  | none =>
    exact foldl_preserve
      (fun (q : Option Date × Option Nat × Option Date) =>
        (∀ d, q.1 = some d → Date.valid d = true ∧ 1900 ≤ d.year) ∧
        (∀ e, q.2.2 = some e → Date.valid e = true ∧ 1900 ≤ e.year))
      (fun (q : Option Date × Option Nat × Option Date) (raw : Str) =>
        mrzOuter today q raw)
      lines
      (fun b a _ hb => mrzOuter_good hb.1 hb.2)
      (dob, dli, none) ⟨hdob, fun e he => nomatch he⟩

theorem pick_dob_expiry_good (today : Date) (lines : List Str)
    (cid : Option Str) :
    (∀ s, (_pick_dob_and_expiry today lines cid).1 = some s →
      ∃ dt, Date.valid dt = true ∧ 1900 ≤ dt.year ∧
        s = _format_date_output dt) ∧
    (∀ s, (_pick_dob_and_expiry today lines cid).2 = some s →
      ∃ dt, Date.valid dt = true ∧ 1900 ≤ dt.year ∧
        s = _format_date_output dt) := by
  have heq : _pick_dob_and_expiry today lines cid =
      ((mrzStage today lines
          (dobStage today (_collect_date_candidates today lines) cid).1
          (dobStage today (_collect_date_candidates today lines) cid).2
          (expiryStage5 (_collect_date_candidates today lines)
            (dobStage today (_collect_date_candidates today lines) cid).1
            (dobStage today (_collect_date_candidates today lines) cid).2)).1.map
        _format_date_output,
       ((mrzStage today lines
          (dobStage today (_collect_date_candidates today lines) cid).1
          (dobStage today (_collect_date_candidates today lines) cid).2
          (expiryStage5 (_collect_date_candidates today lines)
            (dobStage today (_collect_date_candidates today lines) cid).1
            (dobStage today (_collect_date_candidates today lines) cid).2)).2.2).map
        _format_date_output) := rfl
  have hc : ∀ c ∈ _collect_date_candidates today lines,
      Date.valid c.value = true ∧ 1900 ≤ c.value.year := by
    intro c hcm
    obtain ⟨_, hv, hy, _⟩ := collect_elem_spec hcm
    exact ⟨hv, hy⟩
  have hdob := dobStage_good today (_collect_date_candidates today lines)
    cid hc
  have he5 := expiryStage5_good (_collect_date_candidates today lines)
    (dobStage today (_collect_date_candidates today lines) cid).1
    (dobStage today (_collect_date_candidates today lines) cid).2 hc
  have hmrz := mrzStage_good today lines
    (dobStage today (_collect_date_candidates today lines) cid).1
    (dobStage today (_collect_date_candidates today lines) cid).2
    (expiryStage5 (_collect_date_candidates today lines)
      (dobStage today (_collect_date_candidates today lines) cid).1
      (dobStage today (_collect_date_candidates today lines) cid).2)
    hdob he5
  constructor
  · intro s hs
    rw [heq] at hs
    simp only [] at hs
    obtain ⟨dt, hdt, hfmt⟩ := Option.map_eq_some'.mp hs
    obtain ⟨hv, hy⟩ := hmrz.1 dt hdt
    exact ⟨dt, hv, hy, hfmt.symm⟩
  · intro s hs
    rw [heq] at hs
    simp only [] at hs
    obtain ⟨dt, hdt, hfmt⟩ := Option.map_eq_some'.mp hs
    obtain ⟨hv, hy⟩ := hmrz.2 dt hdt
    exact ⟨dt, hv, hy, hfmt.symm⟩

theorem pyStrip_subset {s : Str} : ∀ c ∈ pyStrip s, c ∈ s := by
  intro c hc
  unfold pyStrip at hc
  rw [List.mem_reverse] at hc
  have h1 := (List.dropWhile_sublist _).subset hc
  rw [List.mem_reverse] at h1
  exact (List.dropWhile_sublist _).subset h1

theorem clean_line_not_arabic (t : Str) :
    ∀ c ∈ _clean_line t, ¬(0x660 ≤ c.toNat ∧ c.toNat ≤ 0x669) := by
  intro c hc
  unfold _clean_line at hc
  have hc' : c ∈ normalize_digits t := pyStrip_subset c hc
  obtain ⟨c0, _, hc0⟩ := List.mem_map.mp hc'
  rw [← hc0]
  exact arabicToAscii_not_arabic c0

/-- C9: for every OCR result, the `ExtractedFields` returned by the
extraction facade satisfies the invariants that the identifier, when
present, is exactly 12 ASCII digits, and that the birth date and expiry
date, when present, are the `DD/MM/YYYY` rendering
(`_format_date_output`, the model of `strftime("%d/%m/%Y")`) of a real
calendar date whose year is at least 1900. -/
theorem C9_extract_fields_invariants (today : Date) (ocr : OCRResult) :
    (∀ s, (extract_fields today ocr).civil_id = some s →
      s.length = 12 ∧ s.all Char.isDigit = true) ∧
    (∀ s, (extract_fields today ocr).birth_date = some s →
      ∃ dt, Date.valid dt = true ∧ 1900 ≤ dt.year ∧
        s = _format_date_output dt) ∧
    (∀ s, (extract_fields today ocr).expiry_date = some s →
      ∃ dt, Date.valid dt = true ∧ 1900 ≤ dt.year ∧
        s = _format_date_output dt) := by
  have hclean : ∀ l ∈ (ocr.lines.filter
      (fun l => !(pyStrip l.text).isEmpty)).map (fun l => _clean_line l.text),
      ∀ c ∈ l, ¬(0x660 ≤ c.toNat ∧ c.toNat ≤ 0x669) := by
    intro l hl
    obtain ⟨l0, _, hl0⟩ := List.mem_map.mp hl
    rw [← hl0]
    exact clean_line_not_arabic l0.text
  refine ⟨?_, ?_, ?_⟩
  · intro s hs
    have hs' : _pick_civil_id today ((ocr.lines.filter
        (fun l => !(pyStrip l.text).isEmpty)).map
          (fun l => _clean_line l.text)) = some s := hs
    exact pick_civil_id_ascii hclean hs'
  · intro s hs
    have hs' : (_pick_dob_and_expiry today ((ocr.lines.filter
        (fun l => !(pyStrip l.text).isEmpty)).map
          (fun l => _clean_line l.text))
        (_pick_civil_id today ((ocr.lines.filter
          (fun l => !(pyStrip l.text).isEmpty)).map
            (fun l => _clean_line l.text)))).1 = some s := hs
    exact (pick_dob_expiry_good today _ _).1 s hs'
  · intro s hs
    have hs' : (_pick_dob_and_expiry today ((ocr.lines.filter
        (fun l => !(pyStrip l.text).isEmpty)).map
          (fun l => _clean_line l.text))
        (_pick_civil_id today ((ocr.lines.filter
          (fun l => !(pyStrip l.text).isEmpty)).map
            (fun l => _clean_line l.text)))).2 = some s := hs
    exact (pick_dob_expiry_good today _ _).2 s hs'

unseal Rat.add Rat.mul Rat.inv in
theorem C9_extract_fields_invariants_witness :
    ("290010112346".data.length = 12 ∧
      "290010112346".data.all Char.isDigit = true) ∧
    (∃ dt, Date.valid dt = true ∧ 1900 ≤ dt.year ∧
      "01/01/1990".data = _format_date_output dt) ∧
    (∃ dt, Date.valid dt = true ∧ 1900 ≤ dt.year ∧
      "01/01/2030".data = _format_date_output dt) :=
  ⟨(C9_extract_fields_invariants exToday exOCR9).1 "290010112346".data
      (by decide),
    (C9_extract_fields_invariants exToday exOCR9).2.1 "01/01/1990".data
      (by decide),
    (C9_extract_fields_invariants exToday exOCR9).2.2 "01/01/2030".data
      (by decide)⟩

/-! ### Similarity-score bounds (C10) -/

theorem commonPrefixLen_le : ∀ a b : Str,
    commonPrefixLen a b ≤ a.length ∧ commonPrefixLen a b ≤ b.length := by
  intro a
  induction a with
  | nil =>
    intro b
    constructor <;> simp [commonPrefixLen]
  | cons x xs ih =>
    intro b
    cases b with
    | nil => constructor <;> simp [commonPrefixLen]
    | cons y ys =>
      have h := ih ys
      by_cases hxy : (x == y) = true
      · simp only [commonPrefixLen, hxy, if_true]
        constructor <;> simp <;> omega
      · simp only [commonPrefixLen, hxy, reduceIte]
        constructor <;> simp

theorem flmFoldChoice : ∀ (x c : Nat × Nat × Nat),
    (if x.2.2 < c.2.2 then c else x) = x ∨
      (if x.2.2 < c.2.2 then c else x) = c := by
  intro x c
  split
  · exact Or.inr rfl
  · exact Or.inl rfl

theorem findLongestMatch_cases (a b : Str) :
    findLongestMatch a b = (0, 0, 0) ∨
    ∃ i j, i < a.length ∧ j < b.length ∧
      findLongestMatch a b = (i, j, commonPrefixLen (a.drop i) (b.drop j)) := by
  unfold findLongestMatch
  have hres := foldl_choice_mem
    (fun (best : Nat × Nat × Nat) (c : Nat × Nat × Nat) =>
      if best.2.2 < c.2.2 then c else best) flmFoldChoice
    ((List.range a.length).flatMap fun i =>
      (List.range b.length).map fun j =>
        (i, j, commonPrefixLen (a.drop i) (b.drop j)))
    (0, 0, 0)
  rcases hres with h | h
  · exact Or.inl h
  · right
    obtain ⟨i, hi, hmem⟩ := List.mem_flatMap.mp h
    obtain ⟨j, hj, hc⟩ := List.mem_map.mp hmem
    exact ⟨i, j, List.mem_range.mp hi, List.mem_range.mp hj, hc.symm⟩

theorem findLongestMatch_bounds (a b : Str) :
    (findLongestMatch a b).1 + (findLongestMatch a b).2.2 ≤ a.length ∧
    (findLongestMatch a b).2.1 + (findLongestMatch a b).2.2 ≤ b.length := by
  rcases findLongestMatch_cases a b with h | ⟨i, j, hi, hj, h⟩
  · rw [h]
    simp
  · rw [h]
    have hc := commonPrefixLen_le (a.drop i) (b.drop j)
    simp only [List.length_drop] at hc
    constructor
    · show i + commonPrefixLen (a.drop i) (b.drop j) ≤ a.length
      omega
    · show j + commonPrefixLen (a.drop i) (b.drop j) ≤ b.length
      omega

theorem smMatchTotalFuel_le : ∀ (fuel : Nat) (a b : Str),
    smMatchTotalFuel fuel a b ≤ a.length ∧
      smMatchTotalFuel fuel a b ≤ b.length := by
  intro fuel
  induction fuel with
  | zero =>
    intro a b
    constructor <;> simp [smMatchTotalFuel]
  | succ n ih =>
    intro a b
    have hb := findLongestMatch_bounds a b
    simp only [smMatchTotalFuel]
    by_cases hz : (findLongestMatch a b).2.2 = 0
    · rw [if_pos hz]
      constructor <;> simp
    · rw [if_neg hz]
      have h1 := ih (a.take (findLongestMatch a b).1)
        (b.take (findLongestMatch a b).2.1)
      have h2 := ih
        (a.drop ((findLongestMatch a b).1 + (findLongestMatch a b).2.2))
        (b.drop ((findLongestMatch a b).2.1 + (findLongestMatch a b).2.2))
      simp only [List.length_take, List.length_drop] at h1 h2
      constructor
      · omega
      · omega

theorem smRatio_bounds (a b : Str) : 0 ≤ smRatio a b ∧ smRatio a b ≤ 1 := by
  unfold smRatio
  by_cases h0 : a.length + b.length = 0
  · rw [if_pos h0]
    norm_num
  · rw [if_neg h0]
    have hM := smMatchTotalFuel_le (a.length + b.length) a b
    have hpos : (0:ℚ) < (a.length : ℚ) + (b.length : ℚ) := by
      have hn : 0 < a.length + b.length := Nat.pos_of_ne_zero h0
      exact_mod_cast hn
    constructor
    · apply div_nonneg _ (le_of_lt hpos)
      positivity
    · rw [div_le_one hpos]
      have hn : 2 * smMatchTotal a b ≤ a.length + b.length := by
        have h1 : smMatchTotal a b ≤ a.length := hM.1
        have h2 : smMatchTotal a b ≤ b.length := hM.2
        omega
      exact_mod_cast hn

theorem pyRound4_unit {q : ℚ} (h0 : 0 ≤ q) (h1 : q ≤ 1) :
    ∃ n : ℤ, pyRound4 q = (n : ℚ) / 10000 ∧ 0 ≤ n ∧ n ≤ 10000 := by
  have hx0 : (0:ℚ) ≤ q * 10000 := by linarith
  have hx1 : q * 10000 ≤ 10000 := by linarith
  have hf0 : 0 ≤ ⌊q * 10000⌋ := Int.floor_nonneg.mpr hx0
  have hf1 : ⌊q * 10000⌋ ≤ 10000 := by
    simpa using Int.floor_mono hx1
  have hle : ((⌊q * 10000⌋ : ℤ) : ℚ) ≤ q * 10000 := Int.floor_le _
  refine ⟨roundHalfEven (q * 10000), rfl, ?_, ?_⟩
  · unfold roundHalfEven
    split
    · exact hf0
    · split
      · omega
      · split
        · exact hf0
        · omega
  · unfold roundHalfEven
    split
    · exact hf1
    · split
      · rename_i hlt hgt
        have h9 : ⌊q * 10000⌋ ≤ 9999 := by
          by_contra hcon
          push_neg at hcon
          have h10 : ⌊q * 10000⌋ = 10000 := by omega
          rw [h10] at hle
          have hq : q * 10000 = 10000 :=
            le_antisymm hx1 (by exact_mod_cast hle)
          rw [h10] at hgt
          rw [hq] at hgt
          norm_num at hgt
        omega
      · split
        · omega
        · rename_i hlt hgt hodd
          omega

/-- C10: for every environment whose `rapidfuzz` percentages (when that
backend is present) lie in `[0, 100]`, `name_similarity` returns a value
in `[0, 1]` that is an integer multiple of `1/10000` (the 4-decimal
rounding), and returns exactly `0` whenever either argument normalizes to
the empty string. -/
theorem C10_name_similarity_bounds (env : NameEnv)
    (hrf : ∀ rf, env.rapidfuzz = some rf → ∀ x y : Str,
      (0 ≤ rf.ratio x y ∧ rf.ratio x y ≤ 100) ∧
      (0 ≤ rf.token_set_ratio x y ∧ rf.token_set_ratio x y ≤ 100) ∧
      (0 ≤ rf.partial_ratio x y ∧ rf.partial_ratio x y ≤ 100)) :
    ∀ a b : Str,
      (0 ≤ name_similarity env a b ∧ name_similarity env a b ≤ 1) ∧
      (∃ n : ℤ, name_similarity env a b = (n : ℚ) / 10000 ∧
        0 ≤ n ∧ n ≤ 10000) ∧
      (((_normalize_name env a).isEmpty = true ∨
          (_normalize_name env b).isEmpty = true) →
        name_similarity env a b = 0) := by
  intro a b
  have hmain : ∃ n : ℤ, name_similarity env a b = (n : ℚ) / 10000 ∧
      0 ≤ n ∧ n ≤ 10000 := by
    simp only [name_similarity]
    by_cases he : ((_normalize_name env a).isEmpty ||
        (_normalize_name env b).isEmpty) = true
    · rw [if_pos he]
      exact ⟨0, by norm_num, le_refl 0, by norm_num⟩
    · rw [if_neg he]
      cases hr : env.rapidfuzz with
      | some rf =>
        simp only []
        obtain ⟨⟨h1a, h1b⟩, ⟨h2a, h2b⟩, ⟨h3a, h3b⟩⟩ :=
          hrf rf hr (_normalize_name env a) (_normalize_name env b)
        apply pyRound4_unit
        · apply div_nonneg _ (by norm_num)
          exact le_trans h1a (le_max_left _ _)
        · rw [div_le_one (by norm_num)]
          exact max_le h1b (max_le h2b h3b)
      | none =>
        simp only []
        exact pyRound4_unit (smRatio_bounds _ _).1 (smRatio_bounds _ _).2
  refine ⟨?_, hmain, ?_⟩
  · obtain ⟨n, hn, hn0, hn1⟩ := hmain
    rw [hn]
    constructor
    · apply div_nonneg _ (by norm_num)
      exact_mod_cast hn0
    · rw [div_le_one (by norm_num)]
      exact_mod_cast hn1
  · intro h
    simp only [name_similarity]
    have hcond : ((_normalize_name env a).isEmpty ||
        (_normalize_name env b).isEmpty) = true := by
      rcases h with h | h <;> simp [h]
    rw [if_pos hcond]

unseal Rat.add Rat.mul Rat.inv in
theorem C10_name_similarity_bounds_witness :
    (0 ≤ name_similarity asciiNameEnv "John Doe".data "!!!".data ∧
      name_similarity asciiNameEnv "John Doe".data "!!!".data ≤ 1) ∧
    name_similarity asciiNameEnv "John Doe".data "!!!".data = 0 :=
  ⟨(C10_name_similarity_bounds asciiNameEnv
      (fun rf h => nomatch h) "John Doe".data "!!!".data).1,
    (C10_name_similarity_bounds asciiNameEnv
      (fun rf h => nomatch h) "John Doe".data "!!!".data).2.2
      (Or.inr (by decide))⟩
